import Mathlib

/-!
# qosapi: the WebSocket session manager of the QOS quote SDK

A shallow embedding of `src/qosapi/ws_client.go`, `src/qosapi/models.go` and the
candlestick operations of `src/qosapi/client.go`.

* Each method is one function on `WSClient` and a session is a sequence of such
  steps (`Op`, `run`); the mutex `c.mu` and interleavings inside a method are
  not part of the state.
* The use of the mutex is stated on a second view of the same methods: what
  each does to the shared fields and to `c.mu`, in program order
  (`Call.accesses`, `readLoopAccesses`), two goroutines interleaved by
  `schedule`.
* A callback invocation is recorded as an `Event`; the body of each closure the
  package builds is a function of its own (`Subscriber.run`, `requestCallback`).
* Results of calls into `encoding/json`, `gorilla/websocket`, `net/url` and
  `net/http` are arguments: the decoders are the fields of `Codec`, the outcome
  of a transport write, dial or close is passed to the operation that makes it.
* Go `int` is the 64 bit two's complement integer: `wrapInt` after arithmetic.
* A Go slice is `Slice α`: `none` is the nil slice.
-/

namespace qosapi

/-! ## Machine integers and slices -/

/-- Largest value of a Go `int` on a 64 bit target. -/
def maxInt : Int := 9223372036854775807

/-- Smallest value of a Go `int` on a 64 bit target. -/
def minInt : Int := -9223372036854775808

/-- Two's complement wrap-around of Go `int` arithmetic. -/
def wrapInt (x : Int) : Int :=
  (x + 9223372036854775808) % 18446744073709551616 - 9223372036854775808

/-- A Go slice value: `none` is nil, `some xs` holds the elements. -/
abbrev Slice (α : Type) := Option (List α)

/-- Go `len` of a slice. -/
def Slice.len {α : Type} : Slice α → Nat
  | none => 0
  | some xs => xs.length

/-- The elements a `range` loop visits. -/
def Slice.elems {α : Type} : Slice α → List α
  | none => []
  | some xs => xs

/-- Equality of results of a fallible call is decidable. -/
instance decEqExcept {ε α : Type} [DecidableEq ε] [DecidableEq α] : DecidableEq (Except ε α) :=
  fun a b =>
    match a, b with
    | .ok x, .ok y =>
      if h : x = y then isTrue (by rw [h]) else isFalse (fun e => h (by cases e; rfl))
    | .error x, .error y =>
      if h : x = y then isTrue (by rw [h]) else isFalse (fun e => h (by cases e; rfl))
    | .ok _, .error _ => isFalse (fun e => by cases e)
    | .error _, .ok _ => isFalse (fun e => by cases e)

/-! ## Go maps as association lists with unique keys -/

/-- Lookup `m[k]` with the comma-ok result. -/
def mapGet {α β : Type} [DecidableEq α] (m : List (α × β)) (k : α) : Option β :=
  match m with
  | [] => none
  | (a, b) :: rest => if a = k then some b else mapGet rest k

/-- The builtin `delete(m, k)`. -/
def mapDelete {α β : Type} [DecidableEq α] (m : List (α × β)) (k : α) : List (α × β) :=
  match m with
  | [] => []
  | (a, b) :: rest => if a = k then mapDelete rest k else (a, b) :: mapDelete rest k

/-- The assignment `m[k] = v`. -/
def mapSet {α β : Type} [DecidableEq α] (m : List (α × β)) (k : α) (v : β) : List (α × β) :=
  (k, v) :: mapDelete m k

/-- The keys present in a map. -/
def mapKeys {α β : Type} (m : List (α × β)) : List α := m.map Prod.fst

/-! ## models.go -/

/-- Go struct `InstrumentInfo`. -/
structure InstrumentInfo where
  Code : String
  Exchange : String
  TradeCurrency : String
  NameCN : String
  NameEN : String
  LotSize : Int
  TotalShares : Int
  OutstandingShares : Int
  EPS : String
  NAV : String
  DividendYield : String
  deriving DecidableEq, Repr

/-- Go struct `SessionQuote`. -/
structure SessionQuote where
  LastPrice : String
  PrevClose : String
  High : String
  Low : String
  Timestamp : Int
  Volume : String
  Turnover : String
  deriving DecidableEq, Repr

/-- Go struct `Snapshot`; the `*SessionQuote` fields are optional values. -/
structure Snapshot where
  Code : String
  LastPrice : String
  PrevClose : String
  Open : String
  High : String
  Low : String
  Timestamp : Int
  Volume : String
  Turnover : String
  Suspended : Int
  PreMarket : Option SessionQuote
  AfterMarket : Option SessionQuote
  NightMarket : Option SessionQuote
  TradeSessionType : Int
  deriving DecidableEq, Repr

/-- Go struct `DepthItem`. -/
structure DepthItem where
  Price : String
  Volume : String
  deriving DecidableEq, Repr

/-- Go struct `Depth`. -/
structure Depth where
  Code : String
  Bids : Slice DepthItem
  Asks : Slice DepthItem
  Timestamp : Int
  deriving DecidableEq, Repr

/-- Go struct `Trade`. -/
structure Trade where
  Code : String
  Price : String
  Volume : String
  Timestamp : Int
  Direction : Int
  deriving DecidableEq, Repr

/-- Go struct `KLine`. -/
structure KLine where
  Code : String
  Open : String
  Close : String
  High : String
  Low : String
  Volume : String
  Timestamp : Int
  KLineType : Int
  deriving DecidableEq, Repr

/-- Go struct `KLineRequest`. -/
structure KLineRequest where
  Codes : String
  Count : Int
  Adjust : Int
  KLineType : Int
  EndTime : Int
  deriving DecidableEq, Repr

/-- Go struct `WSRequest`; `Type_` is the field `Type`. -/
structure WSRequest where
  Type_ : String
  Codes : Slice String := none
  Count : Int := 0
  KLineType : Int := 0
  ReqID : Int := 0
  KLineReqs : Slice KLineRequest := none
  deriving DecidableEq, Repr

/-- Go struct `WSResponse`; `Type_` is the field `Type`, `δ` is the type of the
values `encoding/json` stores in an `interface{}`, `none` the nil interface. -/
structure WSResponse (δ : Type) where
  Type_ : String
  /-- Modelled from the spec: the field `TP` that `readLoop` reads
  (`baseResp.TP`) and the declaration in models.go does not list; per the spec
  it is the `tp` tag of a push message. -/
  TP : String
  Msg : String
  Time : Int
  ReqID : Int
  Data : Option δ
  deriving DecidableEq, Repr

/-- Go struct `WSSnapshot`; `Type_` is the field `Type` (json `tp`). -/
structure WSSnapshot where
  Type_ : String
  Code : String
  LastPrice : String
  PrevClose : String
  Open : String
  High : String
  Low : String
  Timestamp : Int
  Volume : String
  Turnover : String
  Suspended : Int
  TradeSessionType : Int
  deriving DecidableEq, Repr

/-- Go struct `WSTrade`. -/
structure WSTrade where
  Type_ : String
  Code : String
  Price : String
  Volume : String
  Timestamp : Int
  Direction : Int
  deriving DecidableEq, Repr

/-- Go struct `WSDepth`. -/
structure WSDepth where
  Type_ : String
  Code : String
  Bids : Slice DepthItem
  Asks : Slice DepthItem
  Timestamp : Int
  deriving DecidableEq, Repr

/-- Go struct `WSKLine`. -/
structure WSKLine where
  Type_ : String
  Code : String
  Open : String
  Close : String
  High : String
  Low : String
  Volume : String
  Timestamp : Int
  KLineType : Int
  deriving DecidableEq, Repr

/-- The anonymous struct with fields `Code` (json `c`) and `K` (json `k`) that
the candlestick operations decode each entry of `data` into. -/
structure KLineEntry where
  Code : String
  K : Slice KLine
  deriving DecidableEq, Repr

/-! ## Values the session stores and passes around -/

/-- A `*websocket.Conn` returned by the dialer. -/
structure Conn where
  id : Nat
  deriving DecidableEq, Repr

/-- A callback function value supplied by the calling code. -/
structure Func where
  id : Nat
  deriving DecidableEq, Repr

/-- A channel as far as `close` and `select` see it. -/
inductive Chan where
  | live
  | closed
  deriving DecidableEq, Repr

/-- The four push categories. -/
inductive Category where
  | S
  | T
  | D
  | K
  deriving DecidableEq, Repr

/-- The string literal used as subscriber key and as push tag. -/
def Category.key : Category → String
  | .S => "S"
  | .T => "T"
  | .D => "D"
  | .K => "K"

/-- The `interface{}` value the read loop hands to a subscriber. -/
inductive PushData where
  | snapshot (v : WSSnapshot)
  | trade (v : WSTrade)
  | depth (v : WSDepth)
  | kline (v : WSKLine)
  deriving DecidableEq, Repr

/-- Dynamic type of a pushed value. -/
def PushData.category : PushData → Category
  | .snapshot _ => .S
  | .trade _ => .T
  | .depth _ => .D
  | .kline _ => .K

/-- Instrument code (json `c`) of a pushed value. -/
def PushData.code : PushData → String
  | .snapshot v => v.Code
  | .trade v => v.Code
  | .depth v => v.Code
  | .kline v => v.Code

/-- The closure `func(data interface{}) { callback(data.(X)) }` a `Subscribe*`
method stores: `asserts` is the type `X` of the assertion. -/
structure Subscriber where
  asserts : Category
  callback : Func
  deriving DecidableEq, Repr

/-- The synchronous request methods, by the request tag they send. -/
inductive RequestOp where
  | RS
  | RT
  | RD
  | RK
  | RH
  | RI
  deriving DecidableEq, Repr

/-- The closure a `Request*` method passes to `sendRequest`: the method that
built it and the channel `errChan` it captured. -/
structure Callback where
  op : RequestOp
  errChan : Nat
  deriving DecidableEq, Repr

/-- The variable `result` of a `Request*` method, by method. -/
inductive Payload where
  | snapshots (v : Slice Snapshot)
  | trades (v : Slice Trade)
  | depths (v : Slice Depth)
  | klines (v : Slice (Slice KLine))
  | instrumentInfos (v : Slice InstrumentInfo)
  deriving DecidableEq, Repr

/-- The zero value `var result []X` of each method. -/
def Payload.nil : RequestOp → Payload
  | .RS => .snapshots none
  | .RT => .trades none
  | .RD => .depths none
  | .RK => .klines none
  | .RH => .klines none
  | .RI => .instrumentInfos none

/-- One call of a stored function by the read loop. -/
inductive Event (δ : Type) where
  | subscriber (cb : Subscriber) (data : PushData)
  | reply (cb : Callback) (data : Option (WSResponse δ)) (err : Option String)
  deriving DecidableEq, Repr

/-- Go struct `WSClient` without its mutex. -/
structure WSClient where
  apiKey : String
  conn : Option Conn
  reqCounter : Int
  callbacks : List (Int × Callback)
  subscribers : List (String × Subscriber)
  closeChan : Chan
  deriving DecidableEq, Repr

/-- The calls into `encoding/json` the package makes, one field per target
type. A message and a marshalled value are JSON text. -/
structure Codec (δ : Type) where
  /-- Call `json.Unmarshal(message, &baseResp)`. -/
  unmarshalWSResponse : String → Except String (WSResponse δ)
  /-- Call `json.Unmarshal(message, &snapshot)`. -/
  unmarshalWSSnapshot : String → Except String WSSnapshot
  /-- Call `json.Unmarshal(message, &trade)`. -/
  unmarshalWSTrade : String → Except String WSTrade
  /-- Call `json.Unmarshal(message, &depth)`. -/
  unmarshalWSDepth : String → Except String WSDepth
  /-- Call `json.Unmarshal(message, &kline)`. -/
  unmarshalWSKLine : String → Except String WSKLine
  /-- Call `json.Marshal(data)` on the argument of a request callback. -/
  marshal : Option (WSResponse δ) → Except String String
  /-- Decoding into `struct { Data []Snapshot }`, giving the field `Data`. -/
  unmarshalSnapshots : String → Except String (Slice Snapshot)
  /-- Decoding into `struct { Data []Trade }`. -/
  unmarshalTrades : String → Except String (Slice Trade)
  /-- Decoding into `struct { Data []Depth }`. -/
  unmarshalDepths : String → Except String (Slice Depth)
  /-- Decoding into `struct { Data []InstrumentInfo }`. -/
  unmarshalInstrumentInfos : String → Except String (Slice InstrumentInfo)
  /-- Decoding into the struct whose `Data` is a slice of `KLineEntry`. -/
  unmarshalKLineEntries : String → Except String (Slice KLineEntry)
  /-- Decoding an HTTP body into the struct with `Msg` and a slice of
  `KLineEntry` as `Data`. -/
  decodeKLineResult : String → Except String (String × Slice KLineEntry)

/-! ## ws_client.go -/

/-- Go `NewWSClient`. -/
def NewWSClient (apiKey : String) : WSClient :=
  { apiKey := apiKey, conn := none, reqCounter := 0, callbacks := [],
    subscribers := [], closeChan := .live }

/-- Go `WSClient.Connect`: `parse` is the error of `url.Parse(WSBaseURL)`,
`dial` the outcome of `websocket.DefaultDialer.Dial`. The second component is
the returned error. The goroutine `go c.readLoop()` it starts is what handles
the messages of the session (`readLoopMessage`, `readLoop`). -/
def Connect (c : WSClient) (parse : Option String) (dial : Except String Conn) :
    WSClient × Option String :=
  match c.conn with
  | some _ => (c, none)
  | none =>
    match parse with
    | some err => (c, some err)
    | none =>
      match dial with
      | .error err => (c, some err)
      | .ok conn => ({ c with conn := some conn }, none)

/-- Go `WSClient.Close`: `closeErr` is what `c.conn.Close()` returns. The result
is `.error` when the call panics, otherwise the new state and returned error. -/
def Close (c : WSClient) (closeErr : Option String) :
    Except String (WSClient × Option String) :=
  match c.conn with
  | none => .ok (c, none)
  | some _ =>
    match c.closeChan with
    | .closed => .error "close of closed channel"
    | .live => .ok ({ c with closeChan := .closed, conn := none }, closeErr)

/-- Lines 95 to 166 of `readLoop`: what one iteration does with a message that
`ReadMessage` returned. Gives the new state and the calls made, in order. -/
def readLoopMessage {δ : Type} (J : Codec δ) (c : WSClient) (message : String) :
    WSClient × List (Event δ) :=
  match J.unmarshalWSResponse message with
  | .error _ => (c, [])
  | .ok r =>
    let baseResp : WSResponse δ := if r.Type_ = "" then { r with Type_ := r.TP } else r
    if baseResp.Type_ = "S" then
      match J.unmarshalWSSnapshot message with
      | .error _ => (c, [])
      | .ok snapshot =>
        match mapGet c.subscribers "S" with
        | some cb =>
          if snapshot.Code.utf8ByteSize > 0 then (c, [.subscriber cb (.snapshot snapshot)])
          else (c, [])
        | none => (c, [])
    else if baseResp.Type_ = "T" then
      match J.unmarshalWSTrade message with
      | .error _ => (c, [])
      | .ok trade =>
        match mapGet c.subscribers "T" with
        | some cb =>
          if trade.Code.utf8ByteSize > 0 then (c, [.subscriber cb (.trade trade)])
          else (c, [])
        | none => (c, [])
    else if baseResp.Type_ = "D" then
      match J.unmarshalWSDepth message with
      | .error _ => (c, [])
      | .ok depth =>
        match mapGet c.subscribers "D" with
        | some cb =>
          if depth.Code.utf8ByteSize > 0 then (c, [.subscriber cb (.depth depth)])
          else (c, [])
        | none => (c, [])
    else if baseResp.Type_ = "K" then
      match J.unmarshalWSKLine message with
      | .error _ => (c, [])
      | .ok kline =>
        match mapGet c.subscribers "K" with
        | some cb =>
          if kline.Code.utf8ByteSize > 0 then (c, [.subscriber cb (.kline kline)])
          else (c, [])
        | none => (c, [])
    else
      match mapGet c.callbacks baseResp.ReqID with
      | some cb =>
        ({ c with callbacks := mapDelete c.callbacks baseResp.ReqID },
          [if baseResp.Msg ≠ "OK" then .reply cb none (some baseResp.Msg)
           else .reply cb (some baseResp) none])
      | none => (c, [])

/-- Go `WSClient.readLoop` over the successive results of `ReadMessage`; the
third component tells whether the loop is still running when they are used up. -/
def readLoop {δ : Type} (J : Codec δ) (c : WSClient) :
    List (Except String String) → WSClient × List (Event δ) × Bool
  | [] => (c, [], true)
  | read :: rest =>
    match c.closeChan with
    | .closed => (c, [], false)
    | .live =>
      match read with
      | .error _ => (c, [], false)
      | .ok message =>
        let step := readLoopMessage J c message
        let tail := readLoop J step.1 rest
        (tail.1, step.2 ++ tail.2.1, tail.2.2)

/-- What `sendRequest` leaves behind: the state, the envelope handed to
`WriteJSON` if any, and the returned error. -/
structure SendResult where
  client : WSClient
  sent : Option WSRequest
  err : Option String
  deriving DecidableEq, Repr

/-- Go `WSClient.sendRequest`: `callback` is `none` for a nil function, `write`
is what `c.conn.WriteJSON(req)` returns. -/
def sendRequest (c : WSClient) (req : WSRequest) (callback : Option Callback)
    (write : Option String) : SendResult :=
  match c.conn with
  | none => { client := c, sent := none, err := some "WebSocket not connected" }
  | some _ =>
    let reqCounter := wrapInt (c.reqCounter + 1)
    let req := { req with ReqID := reqCounter }
    let callbacks :=
      match callback with
      | some cb => mapSet c.callbacks req.ReqID cb
      | none => c.callbacks
    { client := { c with reqCounter := reqCounter, callbacks := callbacks },
      sent := some req, err := write }

/-- How a public method of the session ends. -/
inductive Return where
  /-- A method whose only result is `error` returned `e`. -/
  | err (e : Option String)
  /-- A `Request*` method returned `result, e`. -/
  | pair (result : Payload) (e : Option String)
  /-- A `Request*` method is blocked in `<-errChan`. -/
  | waiting (errChan : Nat)
  deriving DecidableEq, Repr

/-- State, sent envelope and ending of one public method call. -/
structure CallResult where
  client : WSClient
  sent : Option WSRequest
  ret : Return
  deriving DecidableEq, Repr

/-- Tail `return c.sendRequest(...)` of the one-result methods. -/
def returnErr (r : SendResult) : CallResult :=
  { client := r.client, sent := r.sent, ret := .err r.err }

/-- Tail of a `Request*` method: `if err != nil { return nil, err }`, else the
receive `<-errChan`. -/
def awaitReply (op : RequestOp) (errChan : Nat) (r : SendResult) : CallResult :=
  match r.err with
  | some e => { client := r.client, sent := r.sent, ret := .pair (Payload.nil op) (some e) }
  | none => { client := r.client, sent := r.sent, ret := .waiting errChan }

/-- The body `callback(data.(X))` of a stored subscriber closure: the user
callback and its argument, or the panic of a failed type assertion. -/
def Subscriber.run (s : Subscriber) (data : PushData) : Except String (Func × PushData) :=
  if data.category = s.asserts then .ok (s.callback, data)
  else .error "interface conversion"

/-- The user callbacks a list of read-loop calls ends up invoking, in order. -/
def userCalls {δ : Type} : List (Event δ) → List (Func × PushData)
  | [] => []
  | .subscriber cb data :: rest =>
    match cb.run data with
    | .ok call => call :: userCalls rest
    | .error _ => userCalls rest
  | .reply _ _ _ :: rest => userCalls rest

/-- The loop `result = make([][]KLine, len(resp.Data)); for i, item := range
resp.Data { result[i] = item.K }`. -/
def collectK (data : Slice KLineEntry) : Slice (Slice KLine) :=
  some (data.elems.enum.foldl (fun result p => result.set p.1 p.2.K)
    (List.replicate data.len none))

/-- The step `result = resp.Data` (or the candlestick loop) after decoding the
marshalled reply into the shape of method `op`. -/
def decodeData {δ : Type} (J : Codec δ) (op : RequestOp) (jsonData : String) :
    Except String Payload :=
  match op with
  | .RS => (J.unmarshalSnapshots jsonData).map Payload.snapshots
  | .RT => (J.unmarshalTrades jsonData).map Payload.trades
  | .RD => (J.unmarshalDepths jsonData).map Payload.depths
  | .RK => (J.unmarshalKLineEntries jsonData).map (fun d => Payload.klines (collectK d))
  | .RH => (J.unmarshalKLineEntries jsonData).map (fun d => Payload.klines (collectK d))
  | .RI => (J.unmarshalInstrumentInfos jsonData).map Payload.instrumentInfos

/-- The closure a `Request*` method registers, run on `(data, err)`: the value
of `result` afterwards and the error it sends on `errChan`. With the receive
`<-errChan` done, the method returns exactly this pair. -/
def requestCallback {δ : Type} (J : Codec δ) (op : RequestOp)
    (data : Option (WSResponse δ)) (err : Option String) : Payload × Option String :=
  match err with
  | some e => (Payload.nil op, some e)
  | none =>
    match J.marshal data with
    | .error e => (Payload.nil op, some e)
    | .ok jsonData =>
      match decodeData J op jsonData with
      | .error e => (Payload.nil op, some e)
      | .ok result => (result, none)

/-- Go `WSClient.SubscribeSnapshot`. -/
def SubscribeSnapshot (c : WSClient) (codes : Slice String) (callback : Func)
    (write : Option String) : CallResult :=
  let c1 := { c with subscribers := mapSet c.subscribers "S" ⟨.S, callback⟩ }
  returnErr (sendRequest c1 { Type_ := "S", Codes := codes } none write)

/-- Go `WSClient.UnsubscribeSnapshot`. -/
def UnsubscribeSnapshot (c : WSClient) (codes : Slice String) (write : Option String) :
    CallResult :=
  returnErr (sendRequest c { Type_ := "SC", Codes := codes } none write)

/-- Go `WSClient.SubscribeTrade`. -/
def SubscribeTrade (c : WSClient) (codes : Slice String) (callback : Func)
    (write : Option String) : CallResult :=
  let c1 := { c with subscribers := mapSet c.subscribers "T" ⟨.T, callback⟩ }
  returnErr (sendRequest c1 { Type_ := "T", Codes := codes } none write)

/-- Go `WSClient.UnsubscribeTrade`. -/
def UnsubscribeTrade (c : WSClient) (codes : Slice String) (write : Option String) :
    CallResult :=
  returnErr (sendRequest c { Type_ := "TC", Codes := codes } none write)

/-- Go `WSClient.SubscribeDepth`. -/
def SubscribeDepth (c : WSClient) (codes : Slice String) (callback : Func)
    (write : Option String) : CallResult :=
  let c1 := { c with subscribers := mapSet c.subscribers "D" ⟨.D, callback⟩ }
  returnErr (sendRequest c1 { Type_ := "D", Codes := codes } none write)

/-- Go `WSClient.UnsubscribeDepth`. -/
def UnsubscribeDepth (c : WSClient) (codes : Slice String) (write : Option String) :
    CallResult :=
  returnErr (sendRequest c { Type_ := "DC", Codes := codes } none write)

/-- Go `WSClient.SubscribeKLine`. -/
def SubscribeKLine (c : WSClient) (codes : Slice String) (klineType : Int) (callback : Func)
    (write : Option String) : CallResult :=
  let c1 := { c with subscribers := mapSet c.subscribers "K" ⟨.K, callback⟩ }
  returnErr (sendRequest c1 { Type_ := "K", Codes := codes, KLineType := klineType } none write)

/-- Go `WSClient.UnsubscribeKLine`. -/
def UnsubscribeKLine (c : WSClient) (codes : Slice String) (klineType : Int)
    (write : Option String) : CallResult :=
  returnErr (sendRequest c { Type_ := "KC", Codes := codes, KLineType := klineType } none write)

/-- Go `WSClient.RequestSnapshot` up to its receive; `errChan` names the
channel the call makes. -/
def RequestSnapshot (c : WSClient) (codes : Slice String) (errChan : Nat)
    (write : Option String) : CallResult :=
  awaitReply .RS errChan
    (sendRequest c { Type_ := "RS", Codes := codes } (some ⟨.RS, errChan⟩) write)

/-- Go `WSClient.RequestTrade` up to its receive. -/
def RequestTrade (c : WSClient) (codes : Slice String) (count : Int) (errChan : Nat)
    (write : Option String) : CallResult :=
  awaitReply .RT errChan
    (sendRequest c { Type_ := "RT", Codes := codes, Count := count } (some ⟨.RT, errChan⟩) write)

/-- Go `WSClient.RequestDepth` up to its receive. -/
def RequestDepth (c : WSClient) (codes : Slice String) (errChan : Nat)
    (write : Option String) : CallResult :=
  awaitReply .RD errChan
    (sendRequest c { Type_ := "RD", Codes := codes } (some ⟨.RD, errChan⟩) write)

/-- Go `WSClient.RequestKLine` up to its receive. -/
def RequestKLine (c : WSClient) (requests : Slice KLineRequest) (errChan : Nat)
    (write : Option String) : CallResult :=
  awaitReply .RK errChan
    (sendRequest c { Type_ := "RK", KLineReqs := requests } (some ⟨.RK, errChan⟩) write)

/-- Go `WSClient.RequestHistoryKLine` up to its receive. -/
def RequestHistoryKLine (c : WSClient) (requests : Slice KLineRequest) (errChan : Nat)
    (write : Option String) : CallResult :=
  awaitReply .RH errChan
    (sendRequest c { Type_ := "RH", KLineReqs := requests } (some ⟨.RH, errChan⟩) write)

/-- Go `WSClient.RequestInstrumentInfo` up to its receive. -/
def RequestInstrumentInfo (c : WSClient) (codes : Slice String) (errChan : Nat)
    (write : Option String) : CallResult :=
  awaitReply .RI errChan
    (sendRequest c { Type_ := "RI", Codes := codes } (some ⟨.RI, errChan⟩) write)

/-- Go `WSClient.SendHeartbeat`. -/
def SendHeartbeat (c : WSClient) (write : Option String) : CallResult :=
  returnErr (sendRequest c { Type_ := "H" } none write)

/-! ## client.go: the candlestick operations -/

/-- The common body of `GetKLine` and `GetHistoryKLine` for the endpoint
`path`: `doRequest` stands for `QOSClient.doRequest`, giving the response body
or the transport error. -/
def getKLineAt {δ : Type} (J : Codec δ)
    (doRequest : String → String → Slice KLineRequest → Except String String)
    (path : String) (requests : Slice KLineRequest) : Slice (Slice KLine) × Option String :=
  match doRequest "POST" path requests with
  | .error err => (none, some err)
  | .ok body =>
    match J.decodeKLineResult body with
    | .error err => (none, some err)
    | .ok result =>
      if result.1 ≠ "OK" then (none, some ("API error: " ++ result.1))
      else (collectK result.2, none)

/-- Go `QOSClient.GetKLine`. -/
def GetKLine {δ : Type} (J : Codec δ)
    (doRequest : String → String → Slice KLineRequest → Except String String)
    (requests : Slice KLineRequest) : Slice (Slice KLine) × Option String :=
  getKLineAt J doRequest "/kline" requests

/-- Go `QOSClient.GetHistoryKLine`. -/
def GetHistoryKLine {δ : Type} (J : Codec δ)
    (doRequest : String → String → Slice KLineRequest → Except String String)
    (requests : Slice KLineRequest) : Slice (Slice KLine) × Option String :=
  getKLineAt J doRequest "/history" requests

/-! ## Sessions as traces of calls -/

/-- A call of one of the methods that end in `sendRequest`, with its arguments. -/
inductive Call where
  | SubscribeSnapshot (codes : Slice String) (callback : Func)
  | UnsubscribeSnapshot (codes : Slice String)
  | SubscribeTrade (codes : Slice String) (callback : Func)
  | UnsubscribeTrade (codes : Slice String)
  | SubscribeDepth (codes : Slice String) (callback : Func)
  | UnsubscribeDepth (codes : Slice String)
  | SubscribeKLine (codes : Slice String) (klineType : Int) (callback : Func)
  | UnsubscribeKLine (codes : Slice String) (klineType : Int)
  | RequestSnapshot (codes : Slice String) (errChan : Nat)
  | RequestTrade (codes : Slice String) (count : Int) (errChan : Nat)
  | RequestDepth (codes : Slice String) (errChan : Nat)
  | RequestKLine (requests : Slice KLineRequest) (errChan : Nat)
  | RequestHistoryKLine (requests : Slice KLineRequest) (errChan : Nat)
  | RequestInstrumentInfo (codes : Slice String) (errChan : Nat)
  | SendHeartbeat
  deriving DecidableEq, Repr

/-- Running a call in state `c` when the transport write returns `write`. -/
def Call.run (call : Call) (c : WSClient) (write : Option String) : CallResult :=
  match call with
  | .SubscribeSnapshot codes callback => qosapi.SubscribeSnapshot c codes callback write
  | .UnsubscribeSnapshot codes => qosapi.UnsubscribeSnapshot c codes write
  | .SubscribeTrade codes callback => qosapi.SubscribeTrade c codes callback write
  | .UnsubscribeTrade codes => qosapi.UnsubscribeTrade c codes write
  | .SubscribeDepth codes callback => qosapi.SubscribeDepth c codes callback write
  | .UnsubscribeDepth codes => qosapi.UnsubscribeDepth c codes write
  | .SubscribeKLine codes klineType callback => qosapi.SubscribeKLine c codes klineType callback write
  | .UnsubscribeKLine codes klineType => qosapi.UnsubscribeKLine c codes klineType write
  | .RequestSnapshot codes errChan => qosapi.RequestSnapshot c codes errChan write
  | .RequestTrade codes count errChan => qosapi.RequestTrade c codes count errChan write
  | .RequestDepth codes errChan => qosapi.RequestDepth c codes errChan write
  | .RequestKLine requests errChan => qosapi.RequestKLine c requests errChan write
  | .RequestHistoryKLine requests errChan => qosapi.RequestHistoryKLine c requests errChan write
  | .RequestInstrumentInfo codes errChan => qosapi.RequestInstrumentInfo c codes errChan write
  | .SendHeartbeat => qosapi.SendHeartbeat c write

/-- One atomic step of a session: a method call with the outcome of its
transport operation, or the read loop handling one received message. -/
inductive Op where
  | Connect (parse : Option String) (dial : Except String Conn)
  | Close (closeErr : Option String)
  | invoke (method : Call) (write : Option String)
  | receive (message : String)

/-- The state after a step, or `.error` when the step panics. -/
def Op.apply {δ : Type} (J : Codec δ) (op : Op) (c : WSClient) : Except String WSClient :=
  match op with
  | .Connect parse dial => .ok (qosapi.Connect c parse dial).1
  | .Close closeErr => (qosapi.Close c closeErr).map Prod.fst
  | .invoke method write => .ok (method.run c write).client
  | .receive message => .ok (readLoopMessage J c message).1

/-- The state after a sequence of steps, `.error` once one of them panics. -/
def run {δ : Type} (J : Codec δ) (c : WSClient) : List Op → Except String WSClient
  | [] => .ok c
  | op :: rest =>
    match op.apply J c with
    | .error e => .error e
    | .ok c1 => run J c1 rest

/-! ## Definitions used to state the properties -/

/-- Consecutive `sendRequest` calls, each with its envelope, callback and write
outcome: the final state and the identifiers stamped, in call order. -/
def sendAll (c : WSClient) :
    List (WSRequest × Option Callback × Option String) → WSClient × List Int
  | [] => (c, [])
  | (req, callback, write) :: rest =>
    let r := sendRequest c req callback write
    let tail := sendAll r.client rest
    (tail.1, (r.sent.map WSRequest.ReqID).toList ++ tail.2)

/-- A connected session whose counter is one below the largest `int`. -/
def overflowClient : WSClient :=
  { apiKey := "key", conn := some ⟨1⟩, reqCounter := 9223372036854775806, callbacks := [],
    subscribers := [], closeChan := .live }

/-- Two heartbeat envelopes whose transport writes succeed. -/
def twoHeartbeats : List (WSRequest × Option Callback × Option String) :=
  [({ Type_ := "H" }, none, none), ({ Type_ := "H" }, none, none)]

/-- The request method a call belongs to, if it is one of the six. -/
def Call.requestOp : Call → Option RequestOp
  | .RequestSnapshot _ _ => some .RS
  | .RequestTrade _ _ _ => some .RT
  | .RequestDepth _ _ => some .RD
  | .RequestKLine _ _ => some .RK
  | .RequestHistoryKLine _ _ => some .RH
  | .RequestInstrumentInfo _ _ => some .RI
  | _ => none

/-- The ending of a call that fails at once with error text `e`. -/
def Call.failsWith (method : Call) (e : String) : Return :=
  match method.requestOp with
  | some op => .pair (Payload.nil op) (some e)
  | none => .err (some e)

/-- The push discriminant of a decoded envelope: the `type` field, or the `tp`
field when `type` is empty (lines 101 to 103 of `readLoop`). -/
def discriminant {δ : Type} (r : WSResponse δ) : String :=
  if r.Type_ = "" then r.TP else r.Type_

/-- Whether a tag is one of the four `case` labels of the read loop. -/
def isPushTag (t : String) : Bool :=
  t = "S" || t = "T" || t = "D" || t = "K"

/-- The envelope as the read loop holds it after line 103. -/
def normalize {δ : Type} (r : WSResponse δ) : WSResponse δ :=
  { r with Type_ := discriminant r }

/-- The second decode the `case` of category `X` makes, as pushed value. -/
def Codec.unmarshalPush {δ : Type} (J : Codec δ) (X : Category) (message : String) :
    Except String PushData :=
  match X with
  | .S => (J.unmarshalWSSnapshot message).map PushData.snapshot
  | .T => (J.unmarshalWSTrade message).map PushData.trade
  | .D => (J.unmarshalWSDepth message).map PushData.depth
  | .K => (J.unmarshalWSKLine message).map PushData.kline

/-- The call the read loop makes for a reply envelope `r` whose identifier is
pending with callback `cb` (lines 158 to 162). -/
def replyEvent {δ : Type} (cb : Callback) (r : WSResponse δ) : Event δ :=
  if r.Msg ≠ "OK" then .reply cb none (some r.Msg) else .reply cb (some (normalize r)) none

/-- A session connected, closed and connected again. -/
def reconnectedClient : WSClient :=
  { apiKey := "key", conn := some ⟨2⟩, reqCounter := 0, callbacks := [], subscribers := [],
    closeChan := .closed }

/-- Whether the counter is below the largest `int` before every step of a
trace, so that no `reqCounter++` in it overflows. -/
def noWrap {δ : Type} (J : Codec δ) (c : WSClient) : List Op → Bool
  | [] => true
  | op :: rest =>
    decide (c.reqCounter < maxInt) &&
      match op.apply J c with
      | .ok c1 => noWrap J c1 rest
      | .error _ => true

/-- The counter is a non-negative `int` and every pending key lies in
1..reqCounter. -/
def keysInRange (c : WSClient) : Prop :=
  0 ≤ c.reqCounter ∧ c.reqCounter ≤ maxInt ∧
    ∀ k ∈ mapKeys c.callbacks, 1 ≤ k ∧ k ≤ c.reqCounter

/-! ### Sample messages and a codec defined on them

The texts are JSON; `\x7b` and `\x7d` are the braces. `demoCodec` gives, for
each sample, the value `encoding/json` decodes it to, and fails elsewhere. An
`interface{}` value is represented by its JSON text. -/

/-- The message `{}`: no `type`, no `tp`, no `reqid`. -/
def emptyObject : String := "\x7b\x7d"

/-- An "OK" reply to request 1 carrying one snapshot. -/
def okReply : String :=
  "\x7b\"msg\":\"OK\",\"reqid\":1,\"data\":[\x7b\"c\":\"AAPL.US\",\"lp\":\"189.5\"\x7d]\x7d"

/-- An error reply to request 1. -/
def errReply : String := "\x7b\"msg\":\"invalid code\",\"reqid\":1\x7d"

/-- An "OK" reply to request 1 carrying candles of two instruments. -/
def klineReply : String :=
  "\x7b\"msg\":\"OK\",\"reqid\":1,\"data\":[\x7b\"c\":\"TSLA.US\",\"k\":[\x7b\"c\":\"TSLA.US\",\"o\":\"250\"\x7d]\x7d,\x7b\"c\":\"AAPL.US\",\"k\":[]\x7d]\x7d"

/-- A reply to request 9. -/
def strayReply : String := "\x7b\"msg\":\"OK\",\"reqid\":9\x7d"

/-- A snapshot push tagged through `tp`. -/
def snapshotPush : String := "\x7b\"tp\":\"S\",\"c\":\"AAPL.US\",\"lp\":\"189.5\"\x7d"

/-- A snapshot push whose instrument code is empty. -/
def emptyCodePush : String := "\x7b\"tp\":\"S\",\"c\":\"\"\x7d"

/-- A trade push tagged through `tp`. -/
def tradePush : String := "\x7b\"tp\":\"T\",\"c\":\"AAPL.US\",\"p\":\"189.5\"\x7d"

/-- The envelope `okReply` decodes to. -/
def okResponse : WSResponse String :=
  { Type_ := "", TP := "", Msg := "OK", Time := 0, ReqID := 1,
    Data := some "[\x7b\"c\":\"AAPL.US\",\"lp\":\"189.5\"\x7d]" }

/-- The envelope `klineReply` decodes to. -/
def klineResponse : WSResponse String :=
  { Type_ := "", TP := "", Msg := "OK", Time := 0, ReqID := 1,
    Data := some "[\x7b\"c\":\"TSLA.US\",\"k\":[\x7b\"c\":\"TSLA.US\",\"o\":\"250\"\x7d]\x7d,\x7b\"c\":\"AAPL.US\",\"k\":[]\x7d]" }

/-- The pushed value `snapshotPush` decodes to. -/
def sampleSnapshot : WSSnapshot :=
  { Type_ := "S", Code := "AAPL.US", LastPrice := "189.5", PrevClose := "", Open := "",
    High := "", Low := "", Timestamp := 0, Volume := "", Turnover := "", Suspended := 0,
    TradeSessionType := 0 }

/-- The pushed value `tradePush` decodes to. -/
def sampleTrade : WSTrade :=
  { Type_ := "T", Code := "AAPL.US", Price := "189.5", Volume := "", Timestamp := 0,
    Direction := 0 }

/-- The element of `data` in `okReply`, decoded as `Snapshot`. -/
def sampleQuote : Snapshot :=
  { Code := "AAPL.US", LastPrice := "189.5", PrevClose := "", Open := "", High := "",
    Low := "", Timestamp := 0, Volume := "", Turnover := "", Suspended := 0,
    PreMarket := none, AfterMarket := none, NightMarket := none, TradeSessionType := 0 }

/-- The candle in `klineReply`. -/
def sampleCandle : KLine :=
  { Code := "TSLA.US", Open := "250", Close := "", High := "", Low := "", Volume := "",
    Timestamp := 0, KLineType := 0 }

/-- The entries of `data` in `klineReply`, in the order of the text. -/
def sampleEntries : Slice KLineEntry :=
  some [{ Code := "TSLA.US", K := some [sampleCandle] }, { Code := "AAPL.US", K := some [] }]

/-- Marshalled form of `okResponse`. -/
def okMarshalled : String :=
  "\x7b\"type\":\"\",\"msg\":\"OK\",\"reqid\":1,\"data\":[\x7b\"c\":\"AAPL.US\",\"lp\":\"189.5\"\x7d]\x7d"

/-- Marshalled form of `klineResponse`. -/
def klineMarshalled : String :=
  "\x7b\"type\":\"\",\"msg\":\"OK\",\"reqid\":1,\"data\":[\x7b\"c\":\"TSLA.US\",\"k\":[\x7b\"c\":\"TSLA.US\",\"o\":\"250\"\x7d]\x7d,\x7b\"c\":\"AAPL.US\",\"k\":[]\x7d]\x7d"

/-- A codec defined on the sample messages. -/
def demoCodec : Codec String where
  unmarshalWSResponse m :=
    if m = emptyObject then
      .ok { Type_ := "", TP := "", Msg := "", Time := 0, ReqID := 0, Data := none }
    else if m = okReply then .ok okResponse
    else if m = errReply then
      .ok { Type_ := "", TP := "", Msg := "invalid code", Time := 0, ReqID := 1, Data := none }
    else if m = klineReply then .ok klineResponse
    else if m = strayReply then
      .ok { Type_ := "", TP := "", Msg := "OK", Time := 0, ReqID := 9, Data := none }
    else if m = snapshotPush then
      .ok { Type_ := "", TP := "S", Msg := "", Time := 0, ReqID := 0, Data := none }
    else if m = emptyCodePush then
      .ok { Type_ := "", TP := "S", Msg := "", Time := 0, ReqID := 0, Data := none }
    else if m = tradePush then
      .ok { Type_ := "", TP := "T", Msg := "", Time := 0, ReqID := 0, Data := none }
    else .error "invalid character"
  unmarshalWSSnapshot m :=
    if m = snapshotPush then .ok sampleSnapshot
    else if m = emptyCodePush then .ok { sampleSnapshot with Code := "", LastPrice := "" }
    else .error "invalid character"
  unmarshalWSTrade m :=
    if m = tradePush then .ok sampleTrade else .error "invalid character"
  unmarshalWSDepth _ := .error "invalid character"
  unmarshalWSKLine _ := .error "invalid character"
  marshal d :=
    match d with
    | none => .ok "null"
    | some r =>
      if r = okResponse then .ok okMarshalled
      else if r = klineResponse then .ok klineMarshalled
      else .error "unsupported value"
  unmarshalSnapshots j :=
    if j = okMarshalled then .ok (some [sampleQuote]) else .error "invalid character"
  unmarshalTrades _ := .error "invalid character"
  unmarshalDepths _ := .error "invalid character"
  unmarshalInstrumentInfos _ := .error "invalid character"
  unmarshalKLineEntries j :=
    if j = klineMarshalled then .ok sampleEntries else .error "invalid character"
  decodeKLineResult body :=
    if body = klineReply then .ok ("OK", sampleEntries) else .error "invalid character"

/-- The heartbeat step with a successful write. -/
def heartbeat : Op := .invoke .SendHeartbeat none

/-- A connected session in which request 1 of `RequestSnapshot` is pending. -/
def pendingClient : WSClient :=
  { apiKey := "key", conn := some ⟨1⟩, reqCounter := 1, callbacks := [(1, ⟨.RS, 1⟩)],
    subscribers := [], closeChan := .live }

/-- The session `pendingClient` once the reply to request 1 has been handled. -/
def resolvedClient : WSClient :=
  { apiKey := "key", conn := some ⟨1⟩, reqCounter := 1, callbacks := [],
    subscribers := [], closeChan := .live }

/-- A trace of 2^64 - 1 heartbeats followed by a `RequestTrade` call. -/
def wrapTrace : List Op :=
  List.replicate 18446744073709551615 heartbeat ++
    [.invoke (.RequestTrade (some ["AAPL.US"]) 1 2) none]

/-- The session after `wrapTrace` from `resolvedClient`: identifier 1 is
pending again, now for the `RequestTrade` call. -/
def reusedClient : WSClient :=
  { apiKey := "key", conn := some ⟨1⟩, reqCounter := 1, callbacks := [(1, ⟨.RT, 2⟩)],
    subscribers := [], closeChan := .live }

/-- A trace from a new session: connect, 2^64 - 1 heartbeats, then a
`RequestSnapshot` call. -/
def zeroKeyTrace : List Op :=
  .Connect none (.ok ⟨1⟩) ::
    (List.replicate 18446744073709551615 heartbeat ++
      [.invoke (.RequestSnapshot (some ["AAPL.US"]) 1) none])

/-- The session after `zeroKeyTrace`: a registration keyed by 0. -/
def zeroKeyClient : WSClient :=
  { apiKey := "key", conn := some ⟨1⟩, reqCounter := 0, callbacks := [(0, ⟨.RS, 1⟩)],
    subscribers := [], closeChan := .live }

/-- The closure a call registers with `sendRequest`, if it passes one. -/
def Call.callback : Call → Option Callback
  | .RequestSnapshot _ errChan => some ⟨.RS, errChan⟩
  | .RequestTrade _ _ errChan => some ⟨.RT, errChan⟩
  | .RequestDepth _ errChan => some ⟨.RD, errChan⟩
  | .RequestKLine _ errChan => some ⟨.RK, errChan⟩
  | .RequestHistoryKLine _ errChan => some ⟨.RH, errChan⟩
  | .RequestInstrumentInfo _ errChan => some ⟨.RI, errChan⟩
  | _ => none

/-- What the method blocked in `return result, <-errChan` with closure `cb`
returns once the read loop has made the calls `events`: the pair its closure
leaves in `result` and `errChan` (the receive is done before `result` is
loaded, as the gc compiler orders the two), or `none` while the closure has not
been called. -/
def syncReturn {δ : Type} (J : Codec δ) (cb : Callback) :
    List (Event δ) → Option (Payload × Option String)
  | [] => none
  | .reply cb1 data err :: rest =>
    if cb1 = cb then some (requestCallback J cb.op data err) else syncReturn J cb rest
  | .subscriber _ _ :: rest => syncReturn J cb rest

/-- The category and user callback a `Subscribe*` call registers. -/
def Call.subscriber : Call → Option (Category × Func)
  | .SubscribeSnapshot _ callback => some (.S, callback)
  | .SubscribeTrade _ callback => some (.T, callback)
  | .SubscribeDepth _ callback => some (.D, callback)
  | .SubscribeKLine _ _ callback => some (.K, callback)
  | _ => none

/-- Whether a step leaves the subscriber of category `X` alone: every step
does, except a `Subscribe*` call for `X`. -/
def Op.keeps (X : Category) : Op → Bool
  | .invoke method _ =>
    match method.subscriber with
    | some (Y, _) => decide (Y ≠ X)
    | none => true
  | _ => true

/-- A connected session with nothing registered. -/
def connectedClient : WSClient :=
  { apiKey := "key", conn := some ⟨1⟩, reqCounter := 0, callbacks := [], subscribers := [],
    closeChan := .live }

/-- A transport for the HTTP operations that answers `klineReply` to every
request. -/
def demoRequest : String → String → Slice KLineRequest → Except String String :=
  fun _ _ _ => .ok klineReply

/-- Two candlestick request descriptors, AAPL.US first. -/
def sampleRequests : Slice KLineRequest :=
  some [{ Codes := "AAPL.US", Count := 1, Adjust := 0, KLineType := 1, EndTime := 0 },
        { Codes := "TSLA.US", Count := 1, Adjust := 0, KLineType := 1, EndTime := 0 }]

/-- The category an `Unsubscribe*` call is for. -/
def Call.unsubscribes : Call → Option Category
  | .UnsubscribeSnapshot _ => some .S
  | .UnsubscribeTrade _ => some .T
  | .UnsubscribeDepth _ => some .D
  | .UnsubscribeKLine _ _ => some .K
  | _ => none

/-! ### Accesses to the shared session and the mutex

Each goroutine is the list of what it does, in program order, to the fields of
the one `WSClient` and to `c.mu`; two goroutines run interleaved. -/

/-- The fields of `WSClient` that goroutines share. -/
inductive Field where
  | conn
  | reqCounter
  | callbacks
  | subscribers
  | closeChan
  deriving DecidableEq, Repr

/-- One operation of a goroutine on the session: `c.mu.Lock()`,
`c.mu.Unlock()`, or a read or write of a field (for a map field, of the map). -/
inductive Access where
  | lock
  | unlock
  | read (f : Field)
  | write (f : Field)
  deriving DecidableEq, Repr

/-- Whether the operation reads or writes field `f`. -/
def Access.touches (a : Access) (f : Field) : Bool :=
  match a with
  | .read g => decide (g = f)
  | .write g => decide (g = f)
  | _ => false

/-- Whether the operation writes field `f`. -/
def Access.writes (a : Access) (f : Field) : Bool :=
  match a with
  | .write g => decide (g = f)
  | _ => false

/-- `sendRequest`, lines 173 to 187: lock, the nil check of `c.conn`, and with a
connection `c.reqCounter++`, `req.ReqID = c.reqCounter`, the assignment into
`c.callbacks` when a callback is given, `c.conn.WriteJSON`; the deferred
unlock last. -/
def sendRequestAccesses (connected hasCallback : Bool) : List Access :=
  [.lock, .read .conn] ++
    (if connected then
      [.read .reqCounter, .write .reqCounter, .read .reqCounter] ++
        (if hasCallback then [.write .callbacks] else []) ++ [.read .conn]
     else []) ++
    [.unlock]

/-- A method call: a `Subscribe*` method first assigns `c.subscribers[key]`
(lines 193, 214, 235, 256), then every method runs `sendRequest`. -/
def Call.accesses (method : Call) (connected : Bool) : List Access :=
  (if method.subscriber.isSome then [.write .subscribers] else []) ++
    sendRequestAccesses connected method.callback.isSome

/-- What an iteration of the read loop does with the message it read. -/
inductive Handling where
  /-- One of the two decodes failed: `continue`. -/
  | skipped
  /-- A push whose typed payload decoded. -/
  | push
  /-- A reply; `pending` tells whether its identifier was found. -/
  | reply (pending : Bool)
  deriving DecidableEq, Repr

/-- One iteration of `readLoop`, lines 85 to 166: the `select` on
`c.closeChan`, `c.conn.ReadMessage()`, then for a push the lookup
`c.subscribers[tag]`, for a reply lock, lookup in `c.callbacks`, `delete` when
found, unlock. -/
def readLoopAccesses : Handling → List Access
  | .skipped => [.read .closeChan, .read .conn]
  | .push => [.read .closeChan, .read .conn, .read .subscribers]
  | .reply pending =>
    [.read .closeChan, .read .conn, .lock, .read .callbacks] ++
      (if pending then [.write .callbacks] else []) ++ [.unlock]

/-- Whether every access to field `f` in the list is made with the mutex held;
`held` tells whether the goroutine holds it at the start. -/
def guarded (f : Field) : Bool → List Access → Bool
  | _, [] => true
  | _, .lock :: rest => guarded f true rest
  | _, .unlock :: rest => guarded f false rest
  | held, .read g :: rest => (decide (g ≠ f) || held) && guarded f held rest
  | held, .write g :: rest => (decide (g ≠ f) || held) && guarded f held rest

/-- The two goroutines: the one calling a method, and the read loop. -/
inductive Goroutine where
  | caller
  | reader
  deriving DecidableEq, Repr

/-- What each goroutine has left to do, and which one holds `c.mu`. -/
structure Config where
  caller : List Access
  reader : List Access
  holder : Option Goroutine
  deriving DecidableEq, Repr

/-- What goroutine `g` has left to do. -/
def Config.rest (cfg : Config) : Goroutine → List Access
  | .caller => cfg.caller
  | .reader => cfg.reader

/-- Goroutine `g` goes on with `rest`, the mutex passing to `holder`. -/
def Config.advance (cfg : Config) (g : Goroutine) (rest : List Access)
    (holder : Option Goroutine) : Config :=
  match g with
  | .caller => { cfg with caller := rest, holder := holder }
  | .reader => { cfg with reader := rest, holder := holder }

/-- Goroutine `g` does its next operation; `none` when it has finished or is
blocked in `Lock` (or unlocks a mutex it does not hold). -/
def Config.step (cfg : Config) (g : Goroutine) : Option Config :=
  match cfg.rest g with
  | [] => none
  | .lock :: rest => if cfg.holder = none then some (cfg.advance g rest (some g)) else none
  | .unlock :: rest => if cfg.holder = some g then some (cfg.advance g rest none) else none
  | .read _ :: rest => some (cfg.advance g rest cfg.holder)
  | .write _ :: rest => some (cfg.advance g rest cfg.holder)

/-- The configuration after the goroutines moved in the given order. -/
def schedule (cfg : Config) : List Goroutine → Option Config
  | [] => some cfg
  | g :: rest =>
    match cfg.step g with
    | none => none
    | some cfg1 => schedule cfg1 rest

/-- Both goroutines are about to access field `f`, one of them writing it. -/
def Config.race (cfg : Config) (f : Field) : Bool :=
  match cfg.caller, cfg.reader with
  | a :: _, b :: _ => a.touches f && b.touches f && (a.writes f || b.writes f)
  | _, _ => false

/-! ## Theorems -/

/-! ### Maps and machine integers -/

theorem mapGet_mapDelete_self {α β : Type} [DecidableEq α] (m : List (α × β)) (k : α) :
    mapGet (mapDelete m k) k = none := by
  induction m with
  | nil => rfl
  | cons p rest ih =>
    obtain ⟨a, b⟩ := p
    by_cases h : a = k
    · simp [mapDelete, h, ih]
    · simp [mapDelete, mapGet, h, ih]

theorem mapGet_mapDelete_ne {α β : Type} [DecidableEq α] (m : List (α × β)) {k j : α}
    (h : j ≠ k) : mapGet (mapDelete m k) j = mapGet m j := by
  induction m with
  | nil => rfl
  | cons p rest ih =>
    obtain ⟨a, b⟩ := p
    by_cases hk : a = k
    · subst hk
      have hj : ¬ a = j := fun e => h e.symm
      simp [mapDelete, mapGet, hj, ih]
    · by_cases hj : a = j
      · subst hj
        simp [mapDelete, mapGet, hk]
      · simp [mapDelete, mapGet, hk, hj, ih]

theorem mapGet_mapSet_self {α β : Type} [DecidableEq α] (m : List (α × β)) (k : α) (v : β) :
    mapGet (mapSet m k v) k = some v := by
  simp [mapSet, mapGet]

theorem mapGet_mapSet_ne {α β : Type} [DecidableEq α] (m : List (α × β)) {k j : α} (v : β)
    (h : j ≠ k) : mapGet (mapSet m k v) j = mapGet m j := by
  have hk : ¬ k = j := fun e => h e.symm
  simp [mapSet, mapGet, hk, mapGet_mapDelete_ne m h]

theorem mapGet_eq_none_of_not_mem {α β : Type} [DecidableEq α] (m : List (α × β)) (k : α)
    (h : k ∉ mapKeys m) : mapGet m k = none := by
  induction m with
  | nil => rfl
  | cons p rest ih =>
    obtain ⟨a, b⟩ := p
    simp only [mapKeys, List.map_cons, List.mem_cons, not_or] at h
    have ha : ¬ a = k := fun e => h.1 e.symm
    simp only [mapGet, ha, if_false]
    exact ih h.2

theorem mem_mapKeys_of_mapGet {α β : Type} [DecidableEq α] (m : List (α × β)) (k : α) (v : β)
    (h : mapGet m k = some v) : k ∈ mapKeys m := by
  by_contra hk
  rw [mapGet_eq_none_of_not_mem m k hk] at h
  cases h

theorem mem_mapKeys_mapDelete {α β : Type} [DecidableEq α] (m : List (α × β)) (k j : α)
    (h : j ∈ mapKeys (mapDelete m k)) : j ∈ mapKeys m := by
  induction m with
  | nil => simpa [mapDelete] using h
  | cons p rest ih =>
    obtain ⟨a, b⟩ := p
    by_cases hk : a = k
    · simp only [mapDelete, hk, if_true] at h
      simp only [mapKeys, List.map_cons, List.mem_cons]
      exact Or.inr (ih h)
    · simp only [mapDelete, hk, if_false, mapKeys, List.map_cons, List.mem_cons] at h
      simp only [mapKeys, List.map_cons, List.mem_cons]
      rcases h with h | h
      · exact Or.inl h
      · exact Or.inr (ih h)

theorem wrapInt_of_range (x : Int) (hlo : minInt ≤ x) (hhi : x ≤ maxInt) : wrapInt x = x := by
  unfold minInt at hlo
  unfold maxInt at hhi
  unfold wrapInt
  omega

theorem utf8ByteSize_pos_iff (s : String) : s.utf8ByteSize > 0 ↔ s ≠ "" := by
  cases s with
  | mk l =>
    cases l with
    | nil => simp [String.utf8ByteSize, String.utf8ByteSize.go]
    | cons a t =>
      simp only [String.utf8ByteSize, String.utf8ByteSize.go]
      constructor
      · intro _ h
        have h2 := congrArg String.data h
        simp at h2
      · intro _
        have := Char.utf8Size_pos a
        omega

/-! ### Request identifiers -/

theorem sendRequest_connected (c : WSClient) (conn : Conn) (h : c.conn = some conn)
    (req : WSRequest) (callback : Option Callback) (write : Option String) :
    sendRequest c req callback write =
      { client := { c with
          reqCounter := wrapInt (c.reqCounter + 1),
          callbacks :=
            match callback with
            | some cb => mapSet c.callbacks (wrapInt (c.reqCounter + 1)) cb
            | none => c.callbacks },
        sent := some { req with ReqID := wrapInt (c.reqCounter + 1) },
        err := write } := by
  simp [sendRequest, h]

theorem sendRequest_conn (c : WSClient) (req : WSRequest) (callback : Option Callback)
    (write : Option String) : (sendRequest c req callback write).client.conn = c.conn := by
  unfold sendRequest
  cases h : c.conn <;> simp [h]

theorem sendAll_ids (calls : List (WSRequest × Option Callback × Option String)) :
    ∀ c : WSClient, c.conn ≠ none → minInt ≤ c.reqCounter →
      c.reqCounter + calls.length ≤ maxInt →
      (sendAll c calls).2 = (List.range calls.length).map (fun (i : Nat) => c.reqCounter + 1 + (i : Int)) ∧
      (sendAll c calls).1.reqCounter = c.reqCounter + calls.length := by
  induction calls with
  | nil => intro c _ _ _; simp [sendAll]
  | cons call rest ih =>
    intro c hconn hlo hhi
    obtain ⟨req, callback, write⟩ := call
    obtain ⟨conn, hc⟩ := Option.ne_none_iff_exists'.mp hconn
    simp only [List.length_cons, Nat.cast_add, Nat.cast_one] at hhi
    have hw : wrapInt (c.reqCounter + 1) = c.reqCounter + 1 :=
      wrapInt_of_range _ (by omega) (by omega)
    have hstep := sendRequest_connected c conn hc req callback write
    have ih' := ih (sendRequest c req callback write).client
      (by rw [sendRequest_conn]; exact hconn)
      (by rw [hstep]; simp only [hw]; omega)
      (by rw [hstep]; simp only [hw]; omega)
    constructor
    · simp only [sendAll, ih'.1, List.length_cons, List.range_succ_eq_map, List.map_cons,
        List.map_map]
      rw [hstep]
      simp only [hw, Option.map_some', Option.toList_some, List.singleton_append,
        Nat.cast_zero, add_zero, List.cons.injEq, true_and]
      apply List.map_congr_left
      intro i _
      simp only [Function.comp_apply, Nat.cast_succ]
      omega
    · simp only [sendAll, ih'.2, List.length_cons, Nat.cast_add, Nat.cast_one]
      rw [hstep]
      simp only [hw]
      omega

/-- C1 (amended): in a connected session whose counter is a Go `int` and is at
least N below the largest `int`, N >= 1 consecutive `sendRequest` calls (any
envelopes, with or without callback, any write outcomes) stamp the identifiers
reqCounter+1, ..., reqCounter+N: strictly increasing, pairwise distinct, and
each call stamps reqCounter+1 and leaves reqCounter equal to that stamp. -/
theorem sendRequest_ids_strictly_increasing (c : WSClient)
    (calls : List (WSRequest × Option Callback × Option String))
    (hconn : c.conn ≠ none) (hn : 1 ≤ calls.length) (hlo : minInt ≤ c.reqCounter)
    (hhi : c.reqCounter + calls.length ≤ maxInt) :
    (sendAll c calls).2 =
      (List.range calls.length).map (fun (i : Nat) => c.reqCounter + 1 + (i : Int)) ∧
    (sendAll c calls).2.length = calls.length ∧
    List.Pairwise (fun a b => a < b) (sendAll c calls).2 ∧
    (sendAll c calls).2.Nodup ∧
    (sendAll c calls).1.reqCounter = c.reqCounter + calls.length ∧
    (∀ (req : WSRequest) (callback : Option Callback) (write : Option String),
      (sendRequest c req callback write).sent.map WSRequest.ReqID = some (c.reqCounter + 1) ∧
      (sendRequest c req callback write).client.reqCounter = c.reqCounter + 1) := by
  obtain ⟨hids, hfinal⟩ := sendAll_ids calls c hconn hlo hhi
  have hpw : List.Pairwise (fun a b => a < b) (sendAll c calls).2 := by
    rw [hids]
    refine List.Pairwise.map _ ?_ (List.pairwise_lt_range calls.length)
    intro a b hab
    have : (a : Int) < (b : Int) := by exact_mod_cast hab
    omega
  refine ⟨hids, ?_, hpw, ?_, hfinal, ?_⟩
  · rw [hids]
    simp
  · exact hpw.imp (fun h => ne_of_lt h)
  · intro req callback write
    obtain ⟨conn, hc⟩ := Option.ne_none_iff_exists'.mp hconn
    have hone : (1 : Int) ≤ calls.length := by exact_mod_cast hn
    have hw : wrapInt (c.reqCounter + 1) = c.reqCounter + 1 :=
      wrapInt_of_range _ (by omega) (by omega)
    rw [sendRequest_connected c conn hc]
    simp [hw]

theorem sendRequest_ids_strictly_increasing_witness :
    (sendAll (sendRequest (Connect (NewWSClient "key") none (.ok ⟨1⟩)).1
        ⟨"H", none, 0, 0, 0, none⟩ none none).client twoHeartbeats).2 = [2, 3] ∧
    List.Pairwise (fun a b => a < b)
      (sendAll (sendRequest (Connect (NewWSClient "key") none (.ok ⟨1⟩)).1
        ⟨"H", none, 0, 0, 0, none⟩ none none).client twoHeartbeats).2 :=
  ⟨by decide,
   (sendRequest_ids_strictly_increasing
      (sendRequest (Connect (NewWSClient "key") none (.ok ⟨1⟩)).1
        ⟨"H", none, 0, 0, 0, none⟩ none none).client twoHeartbeats
      (by decide) (by decide) (by decide) (by decide)).2.2.1⟩

/-- C1 as stated fails: in the connected state whose counter is 2^63 - 2, two
consecutive `sendRequest` calls stamp 2^63 - 1 and then -2^63, which is not
strictly increasing. -/
theorem sendRequest_ids_wrap_around :
    overflowClient.conn ≠ none ∧
    (sendAll overflowClient twoHeartbeats).2 = [9223372036854775807, -9223372036854775808] ∧
    ¬ List.Pairwise (fun a b => a < b) (sendAll overflowClient twoHeartbeats).2 := by
  decide

/-! ### Sending without a connection -/

theorem sendRequest_disconnected (c : WSClient) (h : c.conn = none) (req : WSRequest)
    (callback : Option Callback) (write : Option String) :
    sendRequest c req callback write =
      { client := c, sent := none, err := some "WebSocket not connected" } := by
  simp [sendRequest, h]

theorem Close_conn (c c1 : WSClient) (closeErr r : Option String)
    (h : Close c closeErr = .ok (c1, r)) : c1.conn = none := by
  unfold Close at h
  cases hc : c.conn with
  | none =>
    simp only [hc, Except.ok.injEq, Prod.mk.injEq] at h
    rw [← h.1]
    exact hc
  | some conn =>
    cases hch : c.closeChan with
    | closed => simp [hc, hch] at h
    | live =>
      simp only [hc, hch, Except.ok.injEq, Prod.mk.injEq] at h
      rw [← h.1]

/-- C5: while the session holds no connection (`c.conn` is nil, as in a new
session and after every `Close` that returned), `sendRequest` returns the error
"WebSocket not connected", hands nothing to the transport and leaves the state,
so the counter and the pending map, as they were; every subscribe, unsubscribe,
heartbeat and request method then returns that error, a request method with a
nil result and without reaching its receive on `errChan`. -/
theorem sendRequest_not_connected (c : WSClient) (h : c.conn = none) :
    (∀ (req : WSRequest) (callback : Option Callback) (write : Option String),
      sendRequest c req callback write =
        { client := c, sent := none, err := some "WebSocket not connected" }) ∧
    (∀ (method : Call) (write : Option String),
      (method.run c write).ret = method.failsWith "WebSocket not connected" ∧
      (∀ errChan : Nat, (method.run c write).ret ≠ .waiting errChan) ∧
      (method.run c write).sent = none ∧
      (method.run c write).client.reqCounter = c.reqCounter ∧
      (method.run c write).client.callbacks = c.callbacks ∧
      (method.run c write).client.conn = none) ∧
    (∀ apiKey : String, (NewWSClient apiKey).conn = none) ∧
    (∀ (c0 c1 : WSClient) (closeErr r : Option String),
      Close c0 closeErr = .ok (c1, r) → c1.conn = none) := by
  refine ⟨sendRequest_disconnected c h, ?_, fun _ => rfl, Close_conn⟩
  intro method write
  cases method <;>
    simp [Call.run, SubscribeSnapshot, UnsubscribeSnapshot, SubscribeTrade, UnsubscribeTrade,
      SubscribeDepth, UnsubscribeDepth, SubscribeKLine, UnsubscribeKLine, RequestSnapshot,
      RequestTrade, RequestDepth, RequestKLine, RequestHistoryKLine, RequestInstrumentInfo,
      SendHeartbeat, sendRequest, h, returnErr, awaitReply, Call.failsWith, Call.requestOp]

theorem sendRequest_not_connected_witness :
    (NewWSClient "key").conn = none ∧
    (Call.RequestSnapshot (some ["AAPL.US"]) 7).run (NewWSClient "key") none =
      { client := NewWSClient "key", sent := none,
        ret := .pair (.snapshots none) (some "WebSocket not connected") } ∧
    ((Call.RequestSnapshot (some ["AAPL.US"]) 7).run (NewWSClient "key") none).ret =
      (Call.RequestSnapshot (some ["AAPL.US"]) 7).failsWith "WebSocket not connected" :=
  ⟨rfl, by decide,
   ((sendRequest_not_connected (NewWSClient "key") rfl).2.1
      (Call.RequestSnapshot (some ["AAPL.US"]) 7) none).1⟩

/-! ### The read loop, case by case -/

theorem normalize_eq {δ : Type} (r : WSResponse δ) :
    (if r.Type_ = "" then { r with Type_ := r.TP } else r) = normalize r := by
  unfold normalize discriminant
  split <;> rfl

theorem readLoopMessage_undecodable {δ : Type} (J : Codec δ) (c : WSClient) (message e : String)
    (hr : J.unmarshalWSResponse message = .error e) : readLoopMessage J c message = (c, []) := by
  simp [readLoopMessage, hr]

theorem readLoopMessage_reply {δ : Type} (J : Codec δ) (c : WSClient) (message : String)
    (r : WSResponse δ) (hr : J.unmarshalWSResponse message = .ok r)
    (hpush : isPushTag (discriminant r) = false) :
    readLoopMessage J c message =
      match mapGet c.callbacks r.ReqID with
      | some cb => ({ c with callbacks := mapDelete c.callbacks r.ReqID }, [replyEvent cb r])
      | none => (c, []) := by
  simp only [isPushTag, Bool.or_eq_false_iff, decide_eq_false_iff_not] at hpush
  obtain ⟨⟨⟨hS, hT⟩, hD⟩, hK⟩ := hpush
  simp only [readLoopMessage, hr, normalize_eq]
  have hty : (normalize r).Type_ = discriminant r := rfl
  simp only [hty, hS, hT, hD, hK, if_false]
  rfl

theorem readLoopMessage_push {δ : Type} (J : Codec δ) (c : WSClient) (message : String)
    (r : WSResponse δ) (X : Category) (hr : J.unmarshalWSResponse message = .ok r)
    (hd : discriminant r = X.key) :
    readLoopMessage J c message =
      match J.unmarshalPush X message with
      | .error _ => (c, [])
      | .ok payload =>
        match mapGet c.subscribers X.key with
        | some cb =>
          if payload.code.utf8ByteSize > 0 then (c, [.subscriber cb payload]) else (c, [])
        | none => (c, []) := by
  have hty : (normalize r).Type_ = X.key := hd
  simp only [readLoopMessage, hr, normalize_eq, hty]
  cases X
  · simp only [Category.key, if_true, Codec.unmarshalPush]
    cases J.unmarshalWSSnapshot message <;> rfl
  · simp only [Category.key, Codec.unmarshalPush]
    cases J.unmarshalWSTrade message <;> simp [Except.map, PushData.code]
  · simp only [Category.key, Codec.unmarshalPush]
    cases J.unmarshalWSDepth message <;> simp [Except.map, PushData.code]
  · simp only [Category.key, Codec.unmarshalPush]
    cases J.unmarshalWSKLine message <;> simp [Except.map, PushData.code]

theorem readLoopMessage_conn {δ : Type} (J : Codec δ) (c : WSClient) (message : String) :
    (readLoopMessage J c message).1.conn = c.conn ∧
    (readLoopMessage J c message).1.reqCounter = c.reqCounter ∧
    (readLoopMessage J c message).1.subscribers = c.subscribers ∧
    (readLoopMessage J c message).1.closeChan = c.closeChan ∧
    ((readLoopMessage J c message).1.callbacks = c.callbacks ∨
      ∃ k, (readLoopMessage J c message).1.callbacks = mapDelete c.callbacks k) := by
  cases hr : J.unmarshalWSResponse message with
  | error e => simp [readLoopMessage_undecodable J c message e hr]
  | ok r =>
    cases hp : isPushTag (discriminant r) with
    | false =>
      rw [readLoopMessage_reply J c message r hr hp]
      cases mapGet c.callbacks r.ReqID with
      | none => simp
      | some cb => exact ⟨rfl, rfl, rfl, rfl, Or.inr ⟨r.ReqID, rfl⟩⟩
    | true =>
      have hX : ∃ X : Category, discriminant r = X.key := by
        simp only [isPushTag, Bool.or_eq_true, decide_eq_true_eq] at hp
        rcases hp with ((h | h) | h) | h
        · exact ⟨.S, h⟩
        · exact ⟨.T, h⟩
        · exact ⟨.D, h⟩
        · exact ⟨.K, h⟩
      obtain ⟨X, hX⟩ := hX
      rw [readLoopMessage_push J c message r X hr hX]
      cases J.unmarshalPush X message with
      | error e => simp
      | ok payload =>
        cases mapGet c.subscribers X.key with
        | none => simp
        | some cb => by_cases hl : payload.code.utf8ByteSize > 0 <;> simp [hl]

/-! ### What a step does to the counter and the pending map -/

theorem Close_frame (c c1 : WSClient) (closeErr r : Option String)
    (h : Close c closeErr = .ok (c1, r)) :
    c1.reqCounter = c.reqCounter ∧ c1.callbacks = c.callbacks := by
  unfold Close at h
  cases hc : c.conn with
  | none =>
    simp only [hc, Except.ok.injEq, Prod.mk.injEq] at h
    rw [← h.1]
    exact ⟨rfl, rfl⟩
  | some conn =>
    cases hch : c.closeChan with
    | closed => simp [hc, hch] at h
    | live =>
      simp only [hc, hch, Except.ok.injEq, Prod.mk.injEq] at h
      rw [← h.1]
      exact ⟨rfl, rfl⟩

theorem sendRequest_frame (c : WSClient) (req : WSRequest) (callback : Option Callback)
    (write : Option String) :
    ((sendRequest c req callback write).client.reqCounter = c.reqCounter ∧
      (sendRequest c req callback write).client.callbacks = c.callbacks) ∨
    ((sendRequest c req callback write).client.reqCounter = wrapInt (c.reqCounter + 1) ∧
      ((sendRequest c req callback write).client.callbacks = c.callbacks ∨
        ∃ cb, (sendRequest c req callback write).client.callbacks =
          mapSet c.callbacks (wrapInt (c.reqCounter + 1)) cb)) := by
  cases hc : c.conn with
  | none => left; simp [sendRequest, hc]
  | some conn =>
    right
    rw [sendRequest_connected c conn hc]
    cases callback with
    | none => exact ⟨rfl, Or.inl rfl⟩
    | some cb => exact ⟨rfl, Or.inr ⟨cb, rfl⟩⟩

theorem run_frame (method : Call) (c : WSClient) (write : Option String) :
    ((method.run c write).client.reqCounter = c.reqCounter ∧
      (method.run c write).client.callbacks = c.callbacks) ∨
    ((method.run c write).client.reqCounter = wrapInt (c.reqCounter + 1) ∧
      ((method.run c write).client.callbacks = c.callbacks ∨
        ∃ cb, (method.run c write).client.callbacks =
          mapSet c.callbacks (wrapInt (c.reqCounter + 1)) cb)) := by
  have awaitClient : ∀ (op : RequestOp) (ch : Nat) (r : SendResult),
      (awaitReply op ch r).client = r.client := by
    intro op ch r
    unfold awaitReply
    cases r.err <;> rfl
  cases method <;>
    simp only [Call.run, SubscribeSnapshot, UnsubscribeSnapshot, SubscribeTrade,
      UnsubscribeTrade, SubscribeDepth, UnsubscribeDepth, SubscribeKLine, UnsubscribeKLine,
      RequestSnapshot, RequestTrade, RequestDepth, RequestKLine, RequestHistoryKLine,
      RequestInstrumentInfo, SendHeartbeat, returnErr, awaitClient] <;>
    exact sendRequest_frame _ _ _ _

theorem apply_frame {δ : Type} (J : Codec δ) (op : Op) (c c1 : WSClient)
    (h : op.apply J c = .ok c1) :
    (c1.reqCounter = c.reqCounter ∧
      (c1.callbacks = c.callbacks ∨ ∃ k, c1.callbacks = mapDelete c.callbacks k)) ∨
    (c1.reqCounter = wrapInt (c.reqCounter + 1) ∧
      (c1.callbacks = c.callbacks ∨
        ∃ cb, c1.callbacks = mapSet c.callbacks (wrapInt (c.reqCounter + 1)) cb)) := by
  cases op with
  | Connect parse dial =>
    simp only [Op.apply, Except.ok.injEq] at h
    subst h
    left
    unfold Connect
    cases c.conn with
    | some conn => exact ⟨rfl, Or.inl rfl⟩
    | none =>
      cases parse with
      | some e => exact ⟨rfl, Or.inl rfl⟩
      | none =>
        cases dial with
        | error e => exact ⟨rfl, Or.inl rfl⟩
        | ok conn => exact ⟨rfl, Or.inl rfl⟩
  | Close closeErr =>
    left
    simp only [Op.apply] at h
    cases hcl : Close c closeErr with
    | error e => simp [hcl, Except.map] at h
    | ok v =>
      simp only [hcl, Except.map, Except.ok.injEq] at h
      subst h
      have hf := Close_frame c v.1 closeErr v.2 hcl
      exact ⟨hf.1, Or.inl hf.2⟩
  | invoke method write =>
    simp only [Op.apply, Except.ok.injEq] at h
    subst h
    rcases run_frame method c write with h1 | h1
    · exact Or.inl ⟨h1.1, Or.inl h1.2⟩
    · exact Or.inr h1
  | receive message =>
    simp only [Op.apply, Except.ok.injEq] at h
    subst h
    have hf := readLoopMessage_conn J c message
    exact Or.inl ⟨hf.2.1, hf.2.2.2.2⟩

theorem keysInRange_step {δ : Type} (J : Codec δ) (op : Op) (c c1 : WSClient)
    (hinv : keysInRange c) (hlt : c.reqCounter < maxInt) (h : op.apply J c = .ok c1) :
    keysInRange c1 := by
  obtain ⟨h0, hmax, hkeys⟩ := hinv
  have hw : wrapInt (c.reqCounter + 1) = c.reqCounter + 1 :=
    wrapInt_of_range _ (by unfold minInt; omega) (by omega)
  rcases apply_frame J op c c1 h with ⟨hrc, hcb⟩ | ⟨hrc, hcb⟩
  · refine ⟨by omega, by omega, ?_⟩
    rcases hcb with hcb | ⟨k, hcb⟩
    · rw [hcb, hrc]; exact hkeys
    · rw [hcb, hrc]
      intro j hj
      exact hkeys j (mem_mapKeys_mapDelete _ _ _ hj)
  · rw [hw] at hrc hcb
    refine ⟨by omega, by omega, ?_⟩
    rcases hcb with hcb | ⟨cb, hcb⟩
    · rw [hcb, hrc]
      intro j hj
      have := hkeys j hj
      omega
    · rw [hcb, hrc]
      intro j hj
      simp only [mapSet, mapKeys, List.map_cons, List.mem_cons] at hj
      rcases hj with hj | hj
      · omega
      · have := hkeys j (mem_mapKeys_mapDelete _ _ _ hj)
        omega

theorem keysInRange_new (apiKey : String) : keysInRange (NewWSClient apiKey) := by
  refine ⟨le_refl _, by simp [NewWSClient, maxInt], ?_⟩
  intro k hk
  simp [NewWSClient, mapKeys] at hk

theorem keysInRange_run {δ : Type} (J : Codec δ) (ops : List Op) :
    ∀ c c1 : WSClient, keysInRange c → run J c ops = .ok c1 → noWrap J c ops = true →
      keysInRange c1 := by
  induction ops with
  | nil =>
    intro c c1 hinv hrun _
    simp only [run, Except.ok.injEq] at hrun
    subst hrun
    exact hinv
  | cons op rest ih =>
    intro c c1 hinv hrun hno
    simp only [run] at hrun
    simp only [noWrap, Bool.and_eq_true, decide_eq_true_eq] at hno
    cases hstep : op.apply J c with
    | error e => simp [hstep] at hrun
    | ok c2 =>
      simp only [hstep] at hrun hno
      exact ih c2 c1 (keysInRange_step J op c c2 hinv hno.1 hstep) hrun hno.2

/-- An identifier below the counter that is not pending stays so while the
counter does not overflow. -/
theorem retired_step {δ : Type} (J : Codec δ) (op : Op) (c c1 : WSClient) (r : Int)
    (h0 : 0 ≤ c.reqCounter) (hr : r ≤ c.reqCounter) (hnone : mapGet c.callbacks r = none)
    (hlt : c.reqCounter < maxInt) (h : op.apply J c = .ok c1) :
    0 ≤ c1.reqCounter ∧ r ≤ c1.reqCounter ∧ mapGet c1.callbacks r = none := by
  have hw : wrapInt (c.reqCounter + 1) = c.reqCounter + 1 :=
    wrapInt_of_range _ (by unfold minInt; omega) (by omega)
  rcases apply_frame J op c c1 h with ⟨hrc, hcb⟩ | ⟨hrc, hcb⟩
  · refine ⟨by omega, by omega, ?_⟩
    rcases hcb with hcb | ⟨k, hcb⟩
    · rw [hcb]; exact hnone
    · rw [hcb]
      by_cases hk : r = k
      · rw [hk]; exact mapGet_mapDelete_self _ _
      · rw [mapGet_mapDelete_ne _ hk]; exact hnone
  · rw [hw] at hrc hcb
    refine ⟨by omega, by omega, ?_⟩
    rcases hcb with hcb | ⟨cb, hcb⟩
    · rw [hcb]; exact hnone
    · rw [hcb, mapGet_mapSet_ne _ _ (by omega)]
      exact hnone

theorem retired_run {δ : Type} (J : Codec δ) (r : Int) (ops : List Op) :
    ∀ c c1 : WSClient, 0 ≤ c.reqCounter → r ≤ c.reqCounter → mapGet c.callbacks r = none →
      run J c ops = .ok c1 → noWrap J c ops = true → mapGet c1.callbacks r = none := by
  induction ops with
  | nil =>
    intro c c1 _ _ hnone hrun _
    simp only [run, Except.ok.injEq] at hrun
    subst hrun
    exact hnone
  | cons op rest ih =>
    intro c c1 h0 hr hnone hrun hno
    simp only [run] at hrun
    simp only [noWrap, Bool.and_eq_true, decide_eq_true_eq] at hno
    cases hstep : op.apply J c with
    | error e => simp [hstep] at hrun
    | ok c2 =>
      simp only [hstep] at hrun hno
      obtain ⟨h0', hr', hnone'⟩ := retired_step J op c c2 r h0 hr hnone hno.1 hstep
      exact ih c2 c1 h0' hr' hnone' hrun hno.2

theorem run_append {δ : Type} (J : Codec δ) (ops1 ops2 : List Op) :
    ∀ c c1 : WSClient, run J c ops1 = .ok c1 → run J c (ops1 ++ ops2) = run J c1 ops2 := by
  induction ops1 with
  | nil =>
    intro c c1 h
    simp only [run, Except.ok.injEq] at h
    subst h
    rfl
  | cons op rest ih =>
    intro c c1 h
    simp only [run, List.cons_append] at h ⊢
    cases hstep : op.apply J c with
    | error e => simp [hstep] at h
    | ok c2 =>
      simp only [hstep] at h ⊢
      exact ih c2 c1 h

theorem wrapInt_idem (x : Int) : wrapInt (wrapInt x) = wrapInt x := by
  unfold wrapInt
  omega

theorem wrapInt_add (x : Int) (n : Int) : wrapInt (wrapInt (x + 1) + n) = wrapInt (x + (n + 1)) := by
  unfold wrapInt
  omega

/-- In a connected session n heartbeats add n to the counter, modulo 2^64. -/
theorem run_heartbeats {δ : Type} (J : Codec δ) (n : Nat) :
    ∀ (c : WSClient) (conn : Conn), c.conn = some conn → wrapInt c.reqCounter = c.reqCounter →
      run J c (List.replicate n heartbeat) =
        .ok { c with reqCounter := wrapInt (c.reqCounter + (n : Int)) } := by
  induction n with
  | zero =>
    intro c conn _ hw
    simp only [List.replicate, run, Nat.cast_zero, add_zero, hw]
  | succ n ih =>
    intro c conn hc hw
    have hstep : heartbeat.apply J c = .ok { c with reqCounter := wrapInt (c.reqCounter + 1) } := by
      simp only [heartbeat, Op.apply, Call.run, SendHeartbeat, returnErr,
        sendRequest_connected c conn hc]
    simp only [List.replicate, run, hstep]
    rw [ih { c with reqCounter := wrapInt (c.reqCounter + 1) } conn hc (wrapInt_idem _)]
    simp only [wrapInt_add, Nat.cast_succ]

/-! ### Replies -/

/-- C2 (amended): a non-push message whose reqid is pending makes the read-loop
step call exactly that registration's callback, once, and delete exactly that
key: every other key keeps its registration. If moreover the session came from
`NewWSClient` without the counter reaching the largest `int`, then in every
later state reached without the counter reaching it, a second reply carrying
the same reqid calls nothing and changes nothing. -/
theorem reply_resolves_registration_once {δ : Type} (J : Codec δ) (c : WSClient)
    (message : String) (r : WSResponse δ) (cb : Callback)
    (hr : J.unmarshalWSResponse message = .ok r)
    (hpush : isPushTag (discriminant r) = false)
    (hpending : mapGet c.callbacks r.ReqID = some cb) :
    readLoopMessage J c message =
      ({ c with callbacks := mapDelete c.callbacks r.ReqID }, [replyEvent cb r]) ∧
    (∀ k : Int, mapGet (readLoopMessage J c message).1.callbacks k =
      if k = r.ReqID then none else mapGet c.callbacks k) ∧
    (∀ (apiKey : String) (before : List Op),
      run J (NewWSClient apiKey) before = .ok c →
      noWrap J (NewWSClient apiKey) before = true →
      ∀ (later : List Op) (c2 : WSClient),
        run J (readLoopMessage J c message).1 later = .ok c2 →
        noWrap J (readLoopMessage J c message).1 later = true →
        ∀ (message2 : String) (r2 : WSResponse δ),
          J.unmarshalWSResponse message2 = .ok r2 →
          isPushTag (discriminant r2) = false →
          r2.ReqID = r.ReqID →
          readLoopMessage J c2 message2 = (c2, [])) := by
  have hstep : readLoopMessage J c message =
      ({ c with callbacks := mapDelete c.callbacks r.ReqID }, [replyEvent cb r]) := by
    rw [readLoopMessage_reply J c message r hr hpush, hpending]
  refine ⟨hstep, ?_, ?_⟩
  · intro k
    rw [hstep]
    by_cases hk : k = r.ReqID
    · simp only [hk, if_true]
      exact mapGet_mapDelete_self _ _
    · simp only [hk, if_false]
      exact mapGet_mapDelete_ne _ hk
  · intro apiKey before hrun hno later c2 hrun2 hno2 message2 r2 hr2 hpush2 hid
    have hinv := keysInRange_run J before _ _ (keysInRange_new apiKey) hrun hno
    have hmem := hinv.2.2 r.ReqID (mem_mapKeys_of_mapGet _ _ _ hpending)
    rw [hstep] at hrun2 hno2
    have hnone := retired_run J r.ReqID later
      { c with callbacks := mapDelete c.callbacks r.ReqID } c2 hinv.1 hmem.2
      (mapGet_mapDelete_self _ _) hrun2 hno2
    rw [readLoopMessage_reply J c2 message2 r2 hr2 hpush2, hid, hnone]

theorem reply_resolves_registration_once_witness :
    mapGet pendingClient.callbacks okResponse.ReqID = some ⟨.RS, 1⟩ ∧
    readLoopMessage demoCodec pendingClient okReply =
      (resolvedClient, [.reply ⟨.RS, 1⟩ (some okResponse) none]) :=
  ⟨by decide,
   (reply_resolves_registration_once demoCodec pendingClient okReply okResponse ⟨.RS, 1⟩
      (by decide) (by decide) (by decide)).1⟩

/-- C2 as stated fails: request 1 is resolved by its reply; 2^64 - 1 heartbeats
later the counter is back at 0, `RequestTrade` is stamped 1 again, and a second
reply carrying reqid 1 calls that callback. -/
theorem second_reply_after_wrap_around :
    run demoCodec (NewWSClient "key")
      [.Connect none (.ok ⟨1⟩), .invoke (.RequestSnapshot (some ["AAPL.US"]) 1) none] =
      .ok pendingClient ∧
    readLoopMessage demoCodec pendingClient okReply =
      (resolvedClient, [.reply ⟨.RS, 1⟩ (some okResponse) none]) ∧
    run demoCodec resolvedClient wrapTrace = .ok reusedClient ∧
    readLoopMessage demoCodec reusedClient okReply =
      (resolvedClient, [.reply ⟨.RT, 2⟩ (some okResponse) none]) := by
  refine ⟨by decide, by decide, ?_, by decide⟩
  have h2 := run_heartbeats demoCodec 18446744073709551615 resolvedClient ⟨1⟩ rfl (by decide)
  have h3 : wrapInt (resolvedClient.reqCounter + ((18446744073709551615 : Nat) : Int)) = 0 := by
    decide
  rw [wrapTrace, run_append _ _ _ _ _ h2, h3]
  decide

/-! ### Closing -/

/-- Closing twice in a row does not panic: the second call finds no connection. -/
theorem Close_twice (c c1 : WSClient) (e1 e2 r : Option String)
    (h : Close c e1 = .ok (c1, r)) : Close c1 e2 = .ok (c1, none) := by
  have hc := Close_conn c c1 e1 r h
  simp [Close, hc]

/-- C6 fails on the code: after Connect, Close, Connect (both dials succeeding)
the session holds a connection and a closed `closeChan`, and the next `Close`
runs `close(c.closeChan)` a second time, which panics. -/
theorem Close_after_reconnect_panics :
    run demoCodec (NewWSClient "key")
      [.Connect none (.ok ⟨1⟩), .Close none, .Connect none (.ok ⟨2⟩)] = .ok reconnectedClient ∧
    Close reconnectedClient none = .error "close of closed channel" ∧
    run demoCodec (NewWSClient "key")
      [.Connect none (.ok ⟨1⟩), .Close none, .Connect none (.ok ⟨2⟩), .Close none] =
      .error "close of closed channel" := by
  decide

/-! ### Messages that match nothing -/

theorem readLoopMessage_unknown {δ : Type} (J : Codec δ) (c : WSClient) (message : String)
    (r : WSResponse δ) (hr : J.unmarshalWSResponse message = .ok r)
    (hpush : isPushTag (discriminant r) = false)
    (hkey : r.ReqID ∉ mapKeys c.callbacks) : readLoopMessage J c message = (c, []) := by
  rw [readLoopMessage_reply J c message r hr hpush, mapGet_eq_none_of_not_mem _ _ hkey]

/-- C7: a non-push message whose reqid is not a key of the pending map makes
the read-loop step call nothing and leave the whole state, so the pending map,
the subscriber map and the counter, unchanged. -/
theorem unknown_reqid_dropped {δ : Type} (J : Codec δ) (c : WSClient) (message : String)
    (r : WSResponse δ) (hr : J.unmarshalWSResponse message = .ok r)
    (hpush : isPushTag (discriminant r) = false)
    (hkey : r.ReqID ∉ mapKeys c.callbacks) :
    readLoopMessage J c message = (c, []) ∧
    (readLoopMessage J c message).2 = [] ∧
    (readLoopMessage J c message).1.callbacks = c.callbacks ∧
    (readLoopMessage J c message).1.subscribers = c.subscribers ∧
    (readLoopMessage J c message).1.reqCounter = c.reqCounter := by
  have h : readLoopMessage J c message = (c, []) :=
    readLoopMessage_unknown J c message r hr hpush hkey
  rw [h]
  exact ⟨rfl, rfl, rfl, rfl, rfl⟩

theorem unknown_reqid_dropped_witness :
    (9 : Int) ∉ mapKeys pendingClient.callbacks ∧
    readLoopMessage demoCodec pendingClient strayReply = (pendingClient, []) :=
  ⟨by decide,
   (unknown_reqid_dropped demoCodec pendingClient strayReply
      { Type_ := "", TP := "", Msg := "OK", Time := 0, ReqID := 9, Data := none }
      (by decide) (by decide) (by decide)).1⟩

/-- C8 (amended): in every state reached from `NewWSClient` by method calls and
handled messages during which the counter stays below the largest `int`, every
pending key lies in 1..reqCounter, and a message with empty `type`, empty `tp`
and reqid 0 makes the read-loop step call nothing and leave the state
unchanged; a running loop goes on with the next read. -/
theorem malformed_message_rejected {δ : Type} (J : Codec δ) (apiKey : String)
    (ops : List Op) (c : WSClient)
    (hrun : run J (NewWSClient apiKey) ops = .ok c)
    (hno : noWrap J (NewWSClient apiKey) ops = true) :
    keysInRange c ∧
    ∀ (message : String) (r : WSResponse δ),
      J.unmarshalWSResponse message = .ok r → r.Type_ = "" → r.TP = "" → r.ReqID = 0 →
      readLoopMessage J c message = (c, []) ∧
      ∀ rest : List (Except String String), c.closeChan = .live →
        readLoop J c (.ok message :: rest) = readLoop J c rest := by
  have hinv := keysInRange_run J ops _ _ (keysInRange_new apiKey) hrun hno
  refine ⟨hinv, ?_⟩
  intro message r hr hty htp hid
  have hd : discriminant r = "" := by simp [discriminant, hty, htp]
  have hpush : isPushTag (discriminant r) = false := by rw [hd]; decide
  have hkey : r.ReqID ∉ mapKeys c.callbacks := by
    intro hmem
    have := hinv.2.2 _ hmem
    omega
  have h : readLoopMessage J c message = (c, []) :=
    readLoopMessage_unknown J c message r hr hpush hkey
  refine ⟨h, ?_⟩
  intro rest hlive
  simp [readLoop, hlive, h]

theorem malformed_message_rejected_witness :
    run demoCodec (NewWSClient "key")
      [.Connect none (.ok ⟨1⟩), .invoke (.RequestSnapshot (some ["AAPL.US"]) 1) none] =
      .ok pendingClient ∧
    readLoopMessage demoCodec pendingClient emptyObject = (pendingClient, []) :=
  ⟨by decide,
   ((malformed_message_rejected demoCodec "key"
      [.Connect none (.ok ⟨1⟩), .invoke (.RequestSnapshot (some ["AAPL.US"]) 1) none]
      pendingClient (by decide) (by decide)).2 emptyObject
      { Type_ := "", TP := "", Msg := "", Time := 0, ReqID := 0, Data := none }
      (by decide) rfl rfl rfl).1⟩

/-- C8 as stated fails: after Connect and 2^64 - 1 heartbeats the counter is
-1, `RequestSnapshot` is stamped 0, and the message `{}` (no `type`, no `tp`,
no `reqid`) is taken for its reply: the callback is called with the error "". -/
theorem malformed_message_resolves_key_zero :
    run demoCodec (NewWSClient "key") zeroKeyTrace = .ok zeroKeyClient ∧
    mapGet zeroKeyClient.callbacks 0 = some ⟨.RS, 1⟩ ∧
    demoCodec.unmarshalWSResponse emptyObject =
      .ok { Type_ := "", TP := "", Msg := "", Time := 0, ReqID := 0, Data := none } ∧
    readLoopMessage demoCodec zeroKeyClient emptyObject =
      ({ zeroKeyClient with callbacks := [] }, [.reply ⟨.RS, 1⟩ none (some "")]) := by
  refine ⟨?_, by decide, by decide, by decide⟩
  have h1 : (Op.Connect none (.ok ⟨1⟩)).apply demoCodec (NewWSClient "key") =
      .ok { NewWSClient "key" with conn := some ⟨1⟩ } := by decide
  have h2 := run_heartbeats demoCodec 18446744073709551615
    { NewWSClient "key" with conn := some ⟨1⟩ } ⟨1⟩ rfl (by decide)
  have h3 : wrapInt (({ NewWSClient "key" with conn := some ⟨1⟩ } : WSClient).reqCounter +
      ((18446744073709551615 : Nat) : Int)) = -1 := by
    decide
  rw [zeroKeyTrace, run, h1]
  simp only []
  rw [run_append _ _ _ _ _ h2, h3]
  decide

/-! ### Candlestick results -/

theorem collectK_loop (entries : List KLineEntry) :
    ∀ done : List (Slice KLine),
      (entries.enumFrom done.length).foldl (fun result p => result.set p.1 p.2.K)
        (done ++ List.replicate entries.length none) = done ++ entries.map KLineEntry.K := by
  induction entries with
  | nil => intro done; simp
  | cons e rest ih =>
    intro done
    have hset : (done ++ List.replicate (rest.length + 1) none).set done.length e.K =
        done ++ e.K :: List.replicate rest.length none := by
      rw [List.replicate_succ, List.set_append_right _ _ (le_refl _)]
      simp
    simp only [List.enumFrom_cons, List.foldl_cons, List.length_cons, List.map_cons, hset]
    have := ih (done ++ [e.K])
    simp only [List.length_append, List.length_singleton, List.append_assoc,
      List.singleton_append] at this
    exact this

theorem collectK_eq (data : Slice KLineEntry) :
    collectK data = some (data.elems.map KLineEntry.K) := by
  have h := collectK_loop data.elems []
  simp only [List.length_nil, List.nil_append] at h
  have hlen : data.len = data.elems.length := by cases data <;> rfl
  simp only [collectK, List.enum, hlen, h]

/-- C10: the loop over the decoded entries gives exactly their `k` lists, one
per entry and in the order of the entries, so in the order the server wrote
them. Hence an "OK" reply to `RequestKLine` or `RequestHistoryKLine` whose data
decodes to the entries `data` makes the method return these lists with a nil
error, and so does an "OK" body for `GetKLine` and `GetHistoryKLine`, whatever
the request descriptors and their order were. -/
theorem kline_results_in_server_order {δ : Type} (J : Codec δ) (data : Slice KLineEntry) :
    collectK data = some (data.elems.map KLineEntry.K) ∧
    (data.elems.map KLineEntry.K).length = data.elems.length ∧
    (∀ i : Nat, (data.elems.map KLineEntry.K)[i]? = (data.elems[i]?).map KLineEntry.K) ∧
    (∀ (op : RequestOp) (errChan : Nat) (c1 : WSClient) (message : String)
        (r : WSResponse δ) (jsonData : String),
      op = .RK ∨ op = .RH →
      J.unmarshalWSResponse message = .ok r →
      isPushTag (discriminant r) = false →
      mapGet c1.callbacks r.ReqID = some ⟨op, errChan⟩ →
      r.Msg = "OK" →
      J.marshal (some (normalize r)) = .ok jsonData →
      J.unmarshalKLineEntries jsonData = .ok data →
      syncReturn J ⟨op, errChan⟩ (readLoopMessage J c1 message).2 =
        some (.klines (some (data.elems.map KLineEntry.K)), none)) ∧
    (∀ (doRequest : String → String → Slice KLineRequest → Except String String)
        (requests : Slice KLineRequest) (body : String),
      doRequest "POST" "/kline" requests = .ok body →
      J.decodeKLineResult body = .ok ("OK", data) →
      GetKLine J doRequest requests = (some (data.elems.map KLineEntry.K), none)) ∧
    (∀ (doRequest : String → String → Slice KLineRequest → Except String String)
        (requests : Slice KLineRequest) (body : String),
      doRequest "POST" "/history" requests = .ok body →
      J.decodeKLineResult body = .ok ("OK", data) →
      GetHistoryKLine J doRequest requests = (some (data.elems.map KLineEntry.K), none)) := by
  refine ⟨collectK_eq data, List.length_map _ _, fun i => List.getElem?_map _ _ _, ?_, ?_, ?_⟩
  · intro op errChan c1 message r jsonData hop hr hpush hpending hok hm hd
    rw [readLoopMessage_reply J c1 message r hr hpush, hpending]
    rcases hop with hop | hop <;> subst hop <;>
      simp [syncReturn, replyEvent, hok, requestCallback, hm, decodeData, hd, Except.map,
        collectK_eq]
  · intro doRequest requests body hreq hdec
    simp [GetKLine, getKLineAt, hreq, hdec, collectK_eq]
  · intro doRequest requests body hreq hdec
    simp [GetHistoryKLine, getKLineAt, hreq, hdec, collectK_eq]

theorem kline_results_in_server_order_witness :
    GetKLine demoCodec demoRequest sampleRequests =
      (some [some [sampleCandle], some []], none) ∧
    syncReturn demoCodec ⟨.RK, 1⟩
      (readLoopMessage demoCodec
        (RequestKLine connectedClient sampleRequests 1 none).client klineReply).2 =
      some (.klines (some [some [sampleCandle], some []]), none) :=
  ⟨(kline_results_in_server_order demoCodec sampleEntries).2.2.2.2.1
      demoRequest sampleRequests klineReply rfl (by decide),
   (kline_results_in_server_order demoCodec sampleEntries).2.2.2.1 .RK 1
      (RequestKLine connectedClient sampleRequests 1 none).client klineReply klineResponse
      klineMarshalled (Or.inl rfl) (by decide) (by decide) (by decide) rfl (by decide)
      (by decide)⟩

/-! ### Synchronous requests -/

theorem request_registers (method : Call) (cb : Callback) (c : WSClient) (conn : Conn)
    (hm : method.callback = some cb) (hc : c.conn = some conn) :
    (method.run c none).ret = .waiting cb.errChan ∧
    (method.run c none).sent.map WSRequest.ReqID = some (wrapInt (c.reqCounter + 1)) ∧
    (method.run c none).client.callbacks =
      mapSet c.callbacks (wrapInt (c.reqCounter + 1)) cb := by
  cases method <;> simp only [Call.callback, Option.some.injEq] at hm <;>
    first
    | exact absurd hm (by simp)
    | (subst hm
       simp [Call.run, RequestSnapshot, RequestTrade, RequestDepth, RequestKLine,
         RequestHistoryKLine, RequestInstrumentInfo, awaitReply,
         sendRequest_connected c conn hc])

/-- C3: a request method (any of the six) called in a connected session with a
successful write registers its closure under the stamped identifier and waits
on `errChan`. When the read loop then handles the reply to that registration:
if msg is "OK" and the marshalled reply decodes to `payload` in the method's
result shape, the method returns `payload` with a nil error; if msg is anything
else, it returns a nil result and an error whose text is that msg. -/
theorem request_returns_reply {δ : Type} (J : Codec δ) (method : Call) (cb : Callback)
    (c : WSClient) (conn : Conn) (hm : method.callback = some cb) (hc : c.conn = some conn) :
    (method.run c none).ret = .waiting cb.errChan ∧
    (method.run c none).sent.map WSRequest.ReqID = some (wrapInt (c.reqCounter + 1)) ∧
    mapGet (method.run c none).client.callbacks (wrapInt (c.reqCounter + 1)) = some cb ∧
    ∀ (c1 : WSClient) (message : String) (r : WSResponse δ),
      J.unmarshalWSResponse message = .ok r →
      isPushTag (discriminant r) = false →
      mapGet c1.callbacks r.ReqID = some cb →
      (r.Msg = "OK" → ∀ (jsonData : String) (payload : Payload),
        J.marshal (some (normalize r)) = .ok jsonData →
        decodeData J cb.op jsonData = .ok payload →
        syncReturn J cb (readLoopMessage J c1 message).2 = some (payload, none)) ∧
      (r.Msg ≠ "OK" →
        syncReturn J cb (readLoopMessage J c1 message).2 =
          some (Payload.nil cb.op, some r.Msg)) := by
  obtain ⟨hret, hsent, hcbs⟩ := request_registers method cb c conn hm hc
  refine ⟨hret, hsent, ?_, ?_⟩
  · rw [hcbs]
    exact mapGet_mapSet_self _ _ _
  · intro c1 message r hr hpush hpending
    rw [readLoopMessage_reply J c1 message r hr hpush, hpending]
    constructor
    · intro hok jsonData payload hmar hdec
      simp [syncReturn, replyEvent, hok, requestCallback, hmar, hdec]
    · intro hne
      simp [syncReturn, replyEvent, hne, requestCallback]

theorem request_returns_reply_witness :
    syncReturn demoCodec ⟨.RS, 1⟩
      (readLoopMessage demoCodec
        ((Call.RequestSnapshot (some ["AAPL.US"]) 1).run connectedClient none).client
        okReply).2 = some (.snapshots (some [sampleQuote]), none) ∧
    syncReturn demoCodec ⟨.RS, 1⟩
      (readLoopMessage demoCodec
        ((Call.RequestSnapshot (some ["AAPL.US"]) 1).run connectedClient none).client
        errReply).2 = some (.snapshots none, some "invalid code") :=
  ⟨((request_returns_reply demoCodec (.RequestSnapshot (some ["AAPL.US"]) 1) ⟨.RS, 1⟩
      connectedClient ⟨1⟩ rfl rfl).2.2.2
      ((Call.RequestSnapshot (some ["AAPL.US"]) 1).run connectedClient none).client
      okReply okResponse (by decide) (by decide) (by decide)).1 rfl okMarshalled
      (.snapshots (some [sampleQuote])) (by decide) (by decide),
   ((request_returns_reply demoCodec (.RequestSnapshot (some ["AAPL.US"]) 1) ⟨.RS, 1⟩
      connectedClient ⟨1⟩ rfl rfl).2.2.2
      ((Call.RequestSnapshot (some ["AAPL.US"]) 1).run connectedClient none).client
      errReply { Type_ := "", TP := "", Msg := "invalid code", Time := 0, ReqID := 1, Data := none }
      (by decide) (by decide) (by decide)).2 (by decide)⟩

/-! ### Pushes -/

theorem unmarshalPush_category {δ : Type} (J : Codec δ) (X : Category) (message : String)
    (payload : PushData) (hp : J.unmarshalPush X message = .ok payload) :
    payload.category = X := by
  cases X
  · simp only [Codec.unmarshalPush] at hp
    cases h : J.unmarshalWSSnapshot message <;> simp [h, Except.map] at hp
    subst hp; rfl
  · simp only [Codec.unmarshalPush] at hp
    cases h : J.unmarshalWSTrade message <;> simp [h, Except.map] at hp
    subst hp; rfl
  · simp only [Codec.unmarshalPush] at hp
    cases h : J.unmarshalWSDepth message <;> simp [h, Except.map] at hp
    subst hp; rfl
  · simp only [Codec.unmarshalPush] at hp
    cases h : J.unmarshalWSKLine message <;> simp [h, Except.map] at hp
    subst hp; rfl

theorem readLoopMessage_delivers {δ : Type} (J : Codec δ) (X : Category) (c : WSClient)
    (message : String) (r : WSResponse δ) (payload : PushData) (sub : Subscriber)
    (hr : J.unmarshalWSResponse message = .ok r) (hd : discriminant r = X.key)
    (hp : J.unmarshalPush X message = .ok payload)
    (hsub : mapGet c.subscribers X.key = some sub) (hcode : payload.code ≠ "") :
    readLoopMessage J c message = (c, [.subscriber sub payload]) := by
  have hlen : payload.code.utf8ByteSize > 0 := (utf8ByteSize_pos_iff _).mpr hcode
  rw [readLoopMessage_push J c message r X hr hd, hp, hsub]
  simp [hlen]

/-- C4: for each category X of S, T, D, K and every message whose push
discriminant (`type`, or `tp` when `type` is empty) is the tag of X and whose
second decode gives `payload`: if a subscriber is stored for X and the code of
`payload` is non-empty, the read-loop step calls that subscriber once with
`payload` and calls nothing else, so that the callback registered through the
`Subscribe*` method of X runs exactly once on `payload`; if the code is empty,
nothing is called. The state stays as it was. -/
theorem push_invokes_subscriber {δ : Type} (J : Codec δ) (X : Category) (c : WSClient)
    (message : String) (r : WSResponse δ) (payload : PushData)
    (hr : J.unmarshalWSResponse message = .ok r) (hd : discriminant r = X.key)
    (hp : J.unmarshalPush X message = .ok payload) :
    (∀ sub : Subscriber, mapGet c.subscribers X.key = some sub → payload.code ≠ "" →
      readLoopMessage J c message = (c, [.subscriber sub payload])) ∧
    (∀ f : Func, mapGet c.subscribers X.key = some ⟨X, f⟩ → payload.code ≠ "" →
      userCalls (readLoopMessage J c message).2 = [(f, payload)]) ∧
    (payload.code = "" → readLoopMessage J c message = (c, [])) := by
  refine ⟨?_, ?_, ?_⟩
  · intro sub hsub hcode
    exact readLoopMessage_delivers J X c message r payload sub hr hd hp hsub hcode
  · intro f hsub hcode
    rw [readLoopMessage_delivers J X c message r payload ⟨X, f⟩ hr hd hp hsub hcode]
    simp [userCalls, Subscriber.run, unmarshalPush_category J X message payload hp]
  · intro hcode
    have hlen : ¬ payload.code.utf8ByteSize > 0 := by
      rw [utf8ByteSize_pos_iff]
      exact fun h => h hcode
    rw [readLoopMessage_push J c message r X hr hd, hp]
    cases mapGet c.subscribers X.key <;> simp [hlen]

theorem push_invokes_subscriber_witness :
    userCalls (readLoopMessage demoCodec
      (SubscribeSnapshot connectedClient (some ["AAPL.US"]) ⟨7⟩ none).client snapshotPush).2 =
      [(⟨7⟩, .snapshot sampleSnapshot)] ∧
    readLoopMessage demoCodec
      (SubscribeSnapshot connectedClient (some ["AAPL.US"]) ⟨7⟩ none).client emptyCodePush =
      ((SubscribeSnapshot connectedClient (some ["AAPL.US"]) ⟨7⟩ none).client, []) :=
  ⟨(push_invokes_subscriber demoCodec .S
      (SubscribeSnapshot connectedClient (some ["AAPL.US"]) ⟨7⟩ none).client snapshotPush
      { Type_ := "", TP := "S", Msg := "", Time := 0, ReqID := 0, Data := none }
      (.snapshot sampleSnapshot) (by decide) (by decide) (by decide)).2.1 ⟨7⟩
      (by decide) (by decide),
   by decide⟩

/-! ### Subscribing twice -/

theorem Category.key_injective (X Y : Category) (h : X.key = Y.key) : X = Y := by
  cases X <;> cases Y <;> first | rfl | (exact absurd h (by decide))

theorem sendRequest_subscribers (c : WSClient) (req : WSRequest) (callback : Option Callback)
    (write : Option String) :
    (sendRequest c req callback write).client.subscribers = c.subscribers := by
  unfold sendRequest
  cases c.conn <;> rfl

theorem awaitReply_client (op : RequestOp) (errChan : Nat) (r : SendResult) :
    (awaitReply op errChan r).client = r.client := by
  unfold awaitReply
  cases r.err <;> rfl

theorem run_subscribers (method : Call) (c : WSClient) (write : Option String) :
    (method.run c write).client.subscribers =
      match method.subscriber with
      | some (Y, f) => mapSet c.subscribers Y.key ⟨Y, f⟩
      | none => c.subscribers := by
  cases method <;>
    simp only [Call.run, Call.subscriber, SubscribeSnapshot, UnsubscribeSnapshot,
      SubscribeTrade, UnsubscribeTrade, SubscribeDepth, UnsubscribeDepth, SubscribeKLine,
      UnsubscribeKLine, RequestSnapshot, RequestTrade, RequestDepth, RequestKLine,
      RequestHistoryKLine, RequestInstrumentInfo, SendHeartbeat, returnErr, awaitReply_client,
      sendRequest_subscribers, Category.key]

theorem keeps_subscriber {δ : Type} (J : Codec δ) (X : Category) (op : Op) (c c1 : WSClient)
    (hk : op.keeps X = true) (h : op.apply J c = .ok c1) :
    mapGet c1.subscribers X.key = mapGet c.subscribers X.key := by
  cases op with
  | Connect parse dial =>
    simp only [Op.apply, Except.ok.injEq] at h
    subst h
    unfold qosapi.Connect
    cases c.conn with
    | some conn => rfl
    | none =>
      cases parse with
      | some e => rfl
      | none =>
        cases dial with
        | error e => rfl
        | ok conn => rfl
  | Close closeErr =>
    simp only [Op.apply, qosapi.Close] at h
    cases hc : c.conn with
    | none =>
      simp only [hc, Except.map, Except.ok.injEq] at h
      subst h
      rfl
    | some conn =>
      cases hch : c.closeChan with
      | closed => simp [hc, hch, Except.map] at h
      | live =>
        simp only [hc, hch, Except.map, Except.ok.injEq] at h
        subst h
        rfl
  | invoke method write =>
    simp only [Op.apply, Except.ok.injEq] at h
    subst h
    rw [run_subscribers]
    simp only [Op.keeps] at hk
    cases hs : method.subscriber with
    | none => rfl
    | some p =>
      obtain ⟨Y, f⟩ := p
      simp only [hs, decide_eq_true_eq] at hk
      simp only []
      exact mapGet_mapSet_ne _ _ (fun e => hk (Category.key_injective _ _ e).symm)
  | receive message =>
    simp only [Op.apply, Except.ok.injEq] at h
    subst h
    rw [(readLoopMessage_conn J c message).2.2.1]

theorem keeps_subscriber_run {δ : Type} (J : Codec δ) (X : Category) (ops : List Op) :
    ∀ c c1 : WSClient, (∀ op ∈ ops, op.keeps X = true) → run J c ops = .ok c1 →
      mapGet c1.subscribers X.key = mapGet c.subscribers X.key := by
  induction ops with
  | nil =>
    intro c c1 _ hrun
    simp only [run, Except.ok.injEq] at hrun
    subst hrun
    rfl
  | cons op rest ih =>
    intro c c1 hk hrun
    simp only [run] at hrun
    cases hstep : op.apply J c with
    | error e => simp [hstep] at hrun
    | ok c2 =>
      simp only [hstep] at hrun
      rw [ih c2 c1 (fun o ho => hk o (List.mem_cons_of_mem _ ho)) hrun]
      exact keeps_subscriber J X op c c2 (hk op (List.mem_cons_self _ _)) hstep

/-- C9: for each category X and callbacks f and g, after a `Subscribe*` call
for X with f and then one with g (any codes, any write outcomes), and after
any later steps other than a further `Subscribe*` call for X, every push of
category X with a non-empty instrument code makes the read loop call the
closure of g and nothing else: g runs exactly once on the payload, and f, if it
is another callback, does not run. -/
theorem second_subscriber_replaces_first {δ : Type} (J : Codec δ) (X : Category)
    (first second : Call) (f g : Func) (c : WSClient) (w1 w2 : Option String)
    (later : List Op) (c3 : WSClient)
    (hf : first.subscriber = some (X, f)) (hg : second.subscriber = some (X, g))
    (hlater : ∀ op ∈ later, op.keeps X = true)
    (hrun : run J (second.run (first.run c w1).client w2).client later = .ok c3) :
    mapGet (first.run c w1).client.subscribers X.key = some ⟨X, f⟩ ∧
    mapGet c3.subscribers X.key = some ⟨X, g⟩ ∧
    ∀ (message : String) (r : WSResponse δ) (payload : PushData),
      J.unmarshalWSResponse message = .ok r → discriminant r = X.key →
      J.unmarshalPush X message = .ok payload → payload.code ≠ "" →
      readLoopMessage J c3 message = (c3, [.subscriber ⟨X, g⟩ payload]) ∧
      userCalls (readLoopMessage J c3 message).2 = [(g, payload)] ∧
      (f ≠ g → ∀ p : PushData, (f, p) ∉ userCalls (readLoopMessage J c3 message).2) := by
  have hfirst : mapGet (first.run c w1).client.subscribers X.key = some ⟨X, f⟩ := by
    rw [run_subscribers, hf]
    exact mapGet_mapSet_self _ _ _
  have hsecond : mapGet c3.subscribers X.key = some ⟨X, g⟩ := by
    rw [keeps_subscriber_run J X later _ c3 hlater hrun, run_subscribers, hg]
    exact mapGet_mapSet_self _ _ _
  refine ⟨hfirst, hsecond, ?_⟩
  intro message r payload hr hd hp hcode
  have hstep := readLoopMessage_delivers J X c3 message r payload ⟨X, g⟩ hr hd hp hsecond hcode
  have hcalls : userCalls (readLoopMessage J c3 message).2 = [(g, payload)] := by
    rw [hstep]
    simp [userCalls, Subscriber.run, unmarshalPush_category J X message payload hp]
  refine ⟨hstep, hcalls, ?_⟩
  intro hne p hmem
  rw [hcalls] at hmem
  simp only [List.mem_singleton, Prod.mk.injEq] at hmem
  exact hne hmem.1

theorem second_subscriber_replaces_first_witness :
    userCalls (readLoopMessage demoCodec
      (UnsubscribeTrade
        (SubscribeTrade (SubscribeTrade connectedClient (some ["AAPL.US"]) ⟨1⟩ none).client
          (some ["AAPL.US"]) ⟨2⟩ none).client (some ["AAPL.US"]) none).client tradePush).2 =
      [(⟨2⟩, .trade sampleTrade)] :=
  (second_subscriber_replaces_first demoCodec .T
      (.SubscribeTrade (some ["AAPL.US"]) ⟨1⟩) (.SubscribeTrade (some ["AAPL.US"]) ⟨2⟩)
      ⟨1⟩ ⟨2⟩ connectedClient none none [.invoke (.UnsubscribeTrade (some ["AAPL.US"])) none]
      (UnsubscribeTrade
        (SubscribeTrade (SubscribeTrade connectedClient (some ["AAPL.US"]) ⟨1⟩ none).client
          (some ["AAPL.US"]) ⟨2⟩ none).client (some ["AAPL.US"]) none).client
      rfl rfl (by decide) (by decide)).2.2 tradePush
      { Type_ := "", TP := "T", Msg := "", Time := 0, ReqID := 0, Data := none }
      (.trade sampleTrade) (by decide) (by decide) (by decide) (by decide) |>.2.1

/-! ### Unsubscribing -/

theorem unsubscribe_frame (method : Call) (X : Category) (hm : method.unsubscribes = some X)
    (c : WSClient) (write : Option String) :
    (method.run c write).client.subscribers = c.subscribers ∧
    (method.run c write).client.callbacks = c.callbacks := by
  have hsend : ∀ req : WSRequest,
      (sendRequest c req none write).client.callbacks = c.callbacks := by
    intro req
    unfold sendRequest
    cases c.conn <;> rfl
  cases method <;> simp only [Call.unsubscribes, Option.some.injEq] at hm <;>
    first
    | exact absurd hm (by simp)
    | exact ⟨sendRequest_subscribers _ _ _ _, hsend _⟩

/-- C12: each of `UnsubscribeSnapshot`, `UnsubscribeTrade`, `UnsubscribeDepth`
and `UnsubscribeKLine`, in every state and whatever the transport write
returns (also without a connection), leaves the subscriber map and the pending
map as they were; so a push of that category with a non-empty instrument code
handled after the call still calls the subscriber stored before it, once, and
the callback registered through the `Subscribe*` method runs on the payload. -/
theorem unsubscribe_keeps_subscriber {δ : Type} (J : Codec δ) (method : Call) (X : Category)
    (c : WSClient) (write : Option String) (hm : method.unsubscribes = some X) :
    (method.run c write).client.subscribers = c.subscribers ∧
    (method.run c write).client.callbacks = c.callbacks ∧
    ∀ (sub : Subscriber) (message : String) (r : WSResponse δ) (payload : PushData),
      mapGet c.subscribers X.key = some sub →
      J.unmarshalWSResponse message = .ok r → discriminant r = X.key →
      J.unmarshalPush X message = .ok payload → payload.code ≠ "" →
      readLoopMessage J (method.run c write).client message =
        ((method.run c write).client, [.subscriber sub payload]) ∧
      (∀ f : Func, sub = ⟨X, f⟩ →
        userCalls (readLoopMessage J (method.run c write).client message).2 =
          [(f, payload)]) := by
  obtain ⟨hsubs, hcbs⟩ := unsubscribe_frame method X hm c write
  refine ⟨hsubs, hcbs, ?_⟩
  intro sub message r payload hsub hr hd hp hcode
  have hstep := readLoopMessage_delivers J X (method.run c write).client message r payload sub
    hr hd hp (by rw [hsubs]; exact hsub) hcode
  refine ⟨hstep, ?_⟩
  intro f hf
  rw [hstep, hf]
  simp [userCalls, Subscriber.run, unmarshalPush_category J X message payload hp]

theorem unsubscribe_keeps_subscriber_witness :
    userCalls (readLoopMessage demoCodec
      (UnsubscribeSnapshot
        (SubscribeSnapshot connectedClient (some ["AAPL.US"]) ⟨7⟩ none).client
        (some ["AAPL.US"]) none).client snapshotPush).2 =
      [(⟨7⟩, .snapshot sampleSnapshot)] :=
  ((unsubscribe_keeps_subscriber demoCodec (.UnsubscribeSnapshot (some ["AAPL.US"])) .S
      (SubscribeSnapshot connectedClient (some ["AAPL.US"]) ⟨7⟩ none).client none rfl).2.2
      ⟨.S, ⟨7⟩⟩ snapshotPush
      { Type_ := "", TP := "S", Msg := "", Time := 0, ReqID := 0, Data := none }
      (.snapshot sampleSnapshot) (by decide) (by decide) (by decide) (by decide)
      (by decide)).2 ⟨7⟩ rfl

/-! ### The mutex discipline -/

theorem guarded_head (f : Field) (held : Bool) (a : Access) (rest : List Access)
    (hg : guarded f held (a :: rest) = true) (ht : a.touches f = true) : held = true := by
  cases a with
  | lock => simp [Access.touches] at ht
  | unlock => simp [Access.touches] at ht
  | read g =>
    simp only [Access.touches, decide_eq_true_eq] at ht
    have h2 : held = true ∧ guarded f held rest = true := by simpa [guarded, ht] using hg
    exact h2.1
  | write g =>
    simp only [Access.touches, decide_eq_true_eq] at ht
    have h2 : held = true ∧ guarded f held rest = true := by simpa [guarded, ht] using hg
    exact h2.1

theorem guarded_step (f : Field) (cfg cfg1 : Config) (g : Goroutine)
    (hc : guarded f (decide (cfg.holder = some .caller)) cfg.caller = true)
    (hr : guarded f (decide (cfg.holder = some .reader)) cfg.reader = true)
    (h : cfg.step g = some cfg1) :
    guarded f (decide (cfg1.holder = some .caller)) cfg1.caller = true ∧
    guarded f (decide (cfg1.holder = some .reader)) cfg1.reader = true := by
  obtain ⟨p, q, holder⟩ := cfg
  cases g with
  | caller =>
    cases p with
    | nil => simp [Config.step, Config.rest] at h
    | cons a rest =>
      cases a with
      | lock =>
        simp only [Config.step, Config.rest, Config.advance] at h
        split at h
        · rename_i hn
          simp only [Option.some.injEq] at h
          subst h
          subst hn
          simp only [guarded] at hc
          simpa using ⟨hc, hr⟩
        · cases h
      | unlock =>
        simp only [Config.step, Config.rest, Config.advance] at h
        split at h
        · rename_i hn
          simp only [Option.some.injEq] at h
          subst h
          subst hn
          simp only [guarded] at hc
          simpa using ⟨hc, hr⟩
        · cases h
      | read x =>
        simp only [Config.step, Config.rest, Config.advance, Option.some.injEq] at h
        subst h
        simp only [guarded, Bool.and_eq_true] at hc
        exact ⟨hc.2, hr⟩
      | write x =>
        simp only [Config.step, Config.rest, Config.advance, Option.some.injEq] at h
        subst h
        simp only [guarded, Bool.and_eq_true] at hc
        exact ⟨hc.2, hr⟩
  | reader =>
    cases q with
    | nil => simp [Config.step, Config.rest] at h
    | cons a rest =>
      cases a with
      | lock =>
        simp only [Config.step, Config.rest, Config.advance] at h
        split at h
        · rename_i hn
          simp only [Option.some.injEq] at h
          subst h
          subst hn
          simp only [guarded] at hr
          simpa using ⟨hc, hr⟩
        · cases h
      | unlock =>
        simp only [Config.step, Config.rest, Config.advance] at h
        split at h
        · rename_i hn
          simp only [Option.some.injEq] at h
          subst h
          subst hn
          simp only [guarded] at hr
          simpa using ⟨hc, hr⟩
        · cases h
      | read x =>
        simp only [Config.step, Config.rest, Config.advance, Option.some.injEq] at h
        subst h
        simp only [guarded, Bool.and_eq_true] at hr
        exact ⟨hc, hr.2⟩
      | write x =>
        simp only [Config.step, Config.rest, Config.advance, Option.some.injEq] at h
        subst h
        simp only [guarded, Bool.and_eq_true] at hr
        exact ⟨hc, hr.2⟩

theorem guarded_schedule (f : Field) (order : List Goroutine) :
    ∀ cfg cfg1 : Config,
      guarded f (decide (cfg.holder = some .caller)) cfg.caller = true →
      guarded f (decide (cfg.holder = some .reader)) cfg.reader = true →
      schedule cfg order = some cfg1 → cfg1.race f = false := by
  induction order with
  | nil =>
    intro cfg cfg1 hc hr h
    simp only [schedule, Option.some.injEq] at h
    subst h
    obtain ⟨p, q, holder⟩ := cfg
    cases p with
    | nil => rfl
    | cons a p1 =>
      cases q with
      | nil => rfl
      | cons b q1 =>
        by_contra hrace
        simp only [Config.race, Bool.not_eq_false, Bool.and_eq_true] at hrace
        have h1 := guarded_head f _ a p1 hc hrace.1.1
        have h2 := guarded_head f _ b q1 hr hrace.1.2
        simp only [decide_eq_true_eq] at h1 h2
        rw [h1] at h2
        cases h2
  | cons g rest ih =>
    intro cfg cfg1 hc hr h
    simp only [schedule] at h
    cases hs : cfg.step g with
    | none => simp [hs] at h
    | some cfg2 =>
      simp only [hs] at h
      obtain ⟨hc2, hr2⟩ := guarded_step f cfg cfg2 g hc hr hs
      exact ih cfg2 cfg1 hc2 hr2 h

/-- The pending map is never raced: `sendRequest` and the reply case of the
read loop access `c.callbacks` only between `Lock` and `Unlock`, so however a
method call and a read-loop iteration interleave, they are never both about to
access it. -/
theorem callbacks_never_raced (method : Call) (connected : Bool) (handling : Handling)
    (order : List Goroutine) (cfg : Config)
    (h : schedule ⟨method.accesses connected, readLoopAccesses handling, none⟩ order = some cfg) :
    cfg.race .callbacks = false := by
  refine guarded_schedule .callbacks order _ cfg ?_ ?_ h
  · show guarded .callbacks false (method.accesses connected) = true
    cases connected <;> cases hs : method.subscriber.isSome <;>
      cases hcb : method.callback.isSome <;>
      simp [Call.accesses, sendRequestAccesses, guarded, hs, hcb]
  · show guarded .callbacks false (readLoopAccesses handling) = true
    cases handling with
    | skipped => decide
    | push => decide
    | reply pending => cases pending <;> decide

/-- C11 fails on the code: a `Subscribe*` call writes `c.subscribers` before it
takes `c.mu`, and the push case of the read loop reads `c.subscribers` without
taking it. With `SubscribeSnapshot` called on a connected session while the
read loop has read a push, after the loop's `select` and `ReadMessage` both
goroutines are about to access the map, one of them writing, and nobody holds
the mutex. The pending map is guarded on both paths. -/
theorem subscribers_accessed_without_mutex :
    guarded .subscribers false
      ((Call.SubscribeSnapshot (some ["AAPL.US"]) ⟨7⟩).accesses true) = false ∧
    guarded .subscribers false (readLoopAccesses .push) = false ∧
    schedule ⟨(Call.SubscribeSnapshot (some ["AAPL.US"]) ⟨7⟩).accesses true,
        readLoopAccesses .push, none⟩ [.reader, .reader] =
      some ⟨(Call.SubscribeSnapshot (some ["AAPL.US"]) ⟨7⟩).accesses true,
        [.read .subscribers], none⟩ ∧
    (Config.mk ((Call.SubscribeSnapshot (some ["AAPL.US"]) ⟨7⟩).accesses true)
        [.read .subscribers] none).race .subscribers = true ∧
    guarded .callbacks false
      ((Call.RequestSnapshot (some ["AAPL.US"]) 1).accesses true) = true ∧
    guarded .callbacks false (readLoopAccesses (.reply true)) = true := by
  decide

end qosapi
